import Mathlib

/-!
The lfsc local file stream client: wire codec and command layer

A shallow embedding of `src/src/lfsc.c` (with the enums of `src/include/lfsc.h`).

* A byte is a natural number below 256; a C object of `w` bytes is the list of
  its `w` bytes in memory order (`toMem` / `ofMem`), the host byte order being
  the parameter `be` (`true` on a big-endian host).
* An unsigned or two's-complement value of `w` bytes is carried as its bit
  pattern, a natural number below `256 ^ w`; `toSigned` reads a pattern as a
  signed value.
* The context object and the transport behind `ctx->pipe` are one record,
  `World`, threaded through every function that touches the pipe.
-/

namespace Lfsc

/-! ## Object representation on the host -/

/-- The `w` least significant bytes of `v`, least significant first. -/
def leBytes : Nat → Nat → List Nat
  | 0, _ => []
  | w + 1, v => v % 256 :: leBytes w (v / 256)

/-- Value of a byte list read least significant byte first. -/
def leVal : List Nat → Nat
  | [] => 0
  | b :: bs => b + 256 * leVal bs

/-- Memory image of the `w`-byte integer `v` on the host. -/
def toMem (be : Bool) (w v : Nat) : List Nat :=
  if be then (leBytes w v).reverse else leBytes w v

/-- Value held by a memory image on the host. -/
def ofMem (be : Bool) (m : List Nat) : Nat :=
  leVal (if be then m.reverse else m)

/-- Signed reading of a `bits`-wide two's-complement pattern. -/
def toSigned (bits n : Nat) : Int :=
  if n < 2 ^ (bits - 1) then (n : Int) else (n : Int) - 2 ^ bits

/-- Two's-complement pattern of an integer in `bits` bits (C conversion to a
fixed-width integer type, wrapping). -/
def toPattern (bits : Nat) (z : Int) : Nat :=
  (z % 2 ^ bits).toNat

/-! ## Enumerations (`lfsc.h`, `lfsc.c`) -/

/-- Enumeration `lfsc_status` of `lfsc.h`, in declaration order. -/
inductive lfsc_status
  | LFSC_SOK
  | LFSC_SERR_ALLOC
  | LFSC_SERR_BUSY
  | LFSC_SERR_OPEN_PIPE
  | LFSC_SERR_READ_PIPE
  | LFSC_SERR_WRITE_PIPE
  | LFSC_SERR_OPERATION_FAILED
  | LFSC_SERR_BAD_MAGIC
  | LFSC_SERR_UNKNOWN
  deriving DecidableEq, Repr

open lfsc_status

/-- Integer value of a status enumerator. -/
def lfsc_status.code : lfsc_status → Nat
  | LFSC_SOK => 0
  | LFSC_SERR_ALLOC => 1
  | LFSC_SERR_BUSY => 2
  | LFSC_SERR_OPEN_PIPE => 3
  | LFSC_SERR_READ_PIPE => 4
  | LFSC_SERR_WRITE_PIPE => 5
  | LFSC_SERR_OPERATION_FAILED => 6
  | LFSC_SERR_BAD_MAGIC => 7
  | LFSC_SERR_UNKNOWN => 8

/-- Status enumerator with a given integer value (an integer constant stored
in a variable of type `lfsc_status`). -/
def lfsc_status.ofCode : Nat → lfsc_status
  | 0 => LFSC_SOK
  | 1 => LFSC_SERR_ALLOC
  | 2 => LFSC_SERR_BUSY
  | 3 => LFSC_SERR_OPEN_PIPE
  | 4 => LFSC_SERR_READ_PIPE
  | 5 => LFSC_SERR_WRITE_PIPE
  | 6 => LFSC_SERR_OPERATION_FAILED
  | 7 => LFSC_SERR_BAD_MAGIC
  | _ => LFSC_SERR_UNKNOWN

/-- Enumeration `lfsc_cmd` of `lfsc.c`, in declaration order. -/
inductive lfsc_cmd
  | LFSC_CDISCONNECT
  | LFSC_COPEN
  | LFSC_CCLOSE
  | LFSC_CREAD
  | LFSC_CWRITE
  | LFSC_CSEEK
  | LFSC_CGET_LENGTH
  | LFSC_CSET_LENGTH
  | LFSC_CFLUSH
  | LFSC_CGET_CAN_SEEK
  | LFSC_CGET_CAN_READ
  | LFSC_CGET_CAN_WRITE
  deriving DecidableEq, Repr

open lfsc_cmd

/-- Integer value of a command enumerator. -/
def lfsc_cmd.code : lfsc_cmd → Nat
  | LFSC_CDISCONNECT => 0
  | LFSC_COPEN => 1
  | LFSC_CCLOSE => 2
  | LFSC_CREAD => 3
  | LFSC_CWRITE => 4
  | LFSC_CSEEK => 5
  | LFSC_CGET_LENGTH => 6
  | LFSC_CSET_LENGTH => 7
  | LFSC_CFLUSH => 8
  | LFSC_CGET_CAN_SEEK => 9
  | LFSC_CGET_CAN_READ => 10
  | LFSC_CGET_CAN_WRITE => 11

/-- Constant `lfsc_magic`. -/
def lfsc_magic : Nat := 0xaa55aa55

/-- Macro `LFSC_OPERATION_SUCCESSFUL`. -/
def LFSC_OPERATION_SUCCESSFUL : Nat := 0

/-- Flag `LFSC_CAN_SEEK` of `lfsc_flags`. -/
def LFSC_CAN_SEEK : Nat := 1

/-- Flag `LFSC_CAN_READ` of `lfsc_flags`. -/
def LFSC_CAN_READ : Nat := 2

/-- Flag `LFSC_CAN_WRITE` of `lfsc_flags`. -/
def LFSC_CAN_WRITE : Nat := 4

/-- Constant `SEEK_CUR` of `stdio.h`. -/
def SEEK_CUR : Int := 1

/-- Constant `EOF` of `stdio.h`. -/
def EOF : Int := -1

/-! ## The context and its transport -/

/-- State of one context and of the duplex byte stream behind `ctx->pipe`.

* `inp`: bytes the peer delivers, in order, not yet read;
* `out`: bytes the transport has accepted so far, in order;
* `room`: number of further bytes the transport accepts (`none`: no limit);
* `mutex`: number of times the calling thread holds `ctx->mutex`;
* `bare`: number of `ReadFile`/`WriteFile` calls issued while the mutex was
  not held (bookkeeping only, no C counterpart). -/
structure World where
  inp : List Nat
  out : List Nat
  room : Option Nat
  mutex : Nat
  bare : Nat
  deriving DecidableEq, Repr

/-- A transport that accepts every byte written to it. -/
def World.accepting (w : World) : Prop := w.room = none

instance (w : World) : Decidable w.accepting := by
  unfold World.accepting; infer_instance

/-- Bookkeeping of one transport call. -/
def World.touch (w : World) : World :=
  { w with bare := if w.mutex = 0 then w.bare + 1 else w.bare }

/-- Call `WaitForSingleObject(ctx->mutex, INFINITE)`. -/
def WaitForSingleObject (w : World) : World :=
  { w with mutex := w.mutex + 1 }

/-- Call `ReleaseMutex(ctx->mutex)`. -/
def ReleaseMutex (w : World) : World :=
  { w with mutex := w.mutex - 1 }

/-- Call `WriteFile(pipe, buf, n, &br, NULL)`: the transport takes the first
`min n room` bytes of `buf`; the call reports failure when it takes no byte of
a non-empty request. Result: (success, `br`, new state). -/
def WriteFile (w : World) (buf : List Nat) (n : Nat) : Bool × Nat × World :=
  let k := match w.room with
    | none => n
    | some r => min n r
  (decide (n = 0 ∨ 0 < k), k,
    { w.touch with out := w.out ++ buf.take k, room := w.room.map (fun r => r - k) })

/-- Call `ReadFile(pipe, buf, n, &br, NULL)`: the transport delivers the next
`min n |inp|` bytes; the call reports failure when it delivers no byte of a
non-empty request. Result: (success, bytes stored at `buf`, new state);
`br` is the length of the stored bytes. -/
def ReadFile (w : World) (n : Nat) : Bool × List Nat × World :=
  (decide (n = 0 ∨ 0 < (w.inp.take n).length), w.inp.take n,
    { w.touch with inp := w.inp.drop n })

/-- The state reached from `w` by `calls` transport calls that leave `inp`
unread and `out` accepted, on a transport with no limit on what it accepts. -/
def World.after (w : World) (calls : Nat) (inp out : List Nat) : World :=
  { w with inp := inp, out := out, bare := if w.mutex = 0 then w.bare + calls else w.bare }

/-! ## Wire codec (`lfsc.c`, lines 41-97) -/

/-- Function `lfsc_flip_int_copy`: the host is big-endian when the first byte
of the `uint32_t` 1 is 0; then `dst[i] = src[size - 1 - i]`, otherwise
`memcpy(dst, src, size)`. Result: the `size` bytes stored at `dst`. -/
def lfsc_flip_int_copy (be : Bool) (src : List Nat) (size : Nat) : List Nat :=
  if (toMem be 4 1).headD 1 = 0 then
    (List.range size).map (fun i => src.getD (size - 1 - i) 0)
  else
    src.take size

/-- Function `lfsc_read_int`: reads `size` bytes into a stack buffer and
copies the buffer, normalised, to `out_v`. The part of the buffer that a short
read leaves unwritten is indeterminate in C and taken as zero bytes here.
Result: (return value, bytes stored at `out_v`, new state). -/
def lfsc_read_int (be : Bool) (w : World) (size : Nat) : Bool × List Nat × World :=
  let r := ReadFile w size
  let buffer := r.2.1 ++ List.replicate (size - r.2.1.length) 0
  (r.1 && decide (r.2.1.length = size), lfsc_flip_int_copy be buffer size, r.2.2)

/-- Function `lfsc_write_int`: `v` is the memory image of the integer. -/
def lfsc_write_int (be : Bool) (w : World) (v : List Nat) (size : Nat) : Bool × World :=
  let buffer := lfsc_flip_int_copy be v size
  let r := WriteFile w buffer size
  (r.1 && decide (r.2.1 = size), r.2.2)

/-- Function `lfsc_write_string`: `str` is the memory image of the string and
`byte_length` the bit pattern of the `int32_t` argument (which `WriteFile`
and the comparison with `br` read as a `DWORD`). -/
def lfsc_write_string (be : Bool) (w : World) (str : List Nat) (byte_length : Nat) :
    Bool × World :=
  let r := lfsc_write_int be w (toMem be 4 byte_length) 4
  if !r.1 then (false, r.2)
  else
    let s := WriteFile r.2 str byte_length
    (s.1 && decide (s.2.1 = byte_length), s.2.2)

/-! ## Command framer and command set (`lfsc.c`, lines 99-155 and 242-483) -/

/-- Structure `lfsc_file`: `ctx` is the address of the owning context and
`handle` the `uint64_t` identifier issued by the peer. -/
structure lfsc_file where
  ctx : Nat
  handle : Nat
  deriving DecidableEq, Repr

/-- Function `lfsc_check_status`. -/
def lfsc_check_status (be : Bool) (w : World) : lfsc_status × World :=
  let m := lfsc_read_int be w 4
  if !m.1 then (LFSC_SERR_READ_PIPE, m.2.2)
  else if ofMem be m.2.1 ≠ lfsc_magic then (LFSC_SERR_BAD_MAGIC, m.2.2)
  else
    let s := lfsc_read_int be m.2.2 4
    if !s.1 then (LFSC_SERR_READ_PIPE, s.2.2)
    else if ofMem be s.2.1 ≠ LFSC_OPERATION_SUCCESSFUL then (LFSC_SERR_OPERATION_FAILED, s.2.2)
    else (LFSC_SOK, s.2.2)

/-- Function `lfsc_write_command`; `sizeof(lfsc_magic)` and `sizeof(cmd)` are 4,
`sizeof(handle)` is 8. -/
def lfsc_write_command (be : Bool) (w : World) (handle : Nat) (cmd : lfsc_cmd) :
    Bool × World :=
  let a := lfsc_write_int be w (toMem be 4 lfsc_magic) 4
  if !a.1 then (false, a.2)
  else
    let b := lfsc_write_int be a.2 (toMem be 4 cmd.code) 4
    if !b.1 then (false, b.2)
    else
      let c := lfsc_write_int be b.2 (toMem be 8 handle) 8
      if !c.1 then (false, c.2) else (true, c.2)

/-- Function `lfsc_local_seek`; `offset`, `whence` and `out` are the bit
patterns of the `int64_t`, `int32_t` and `*out` objects.
Result: (status, `*out` afterwards, new state). -/
def lfsc_local_seek (be : Bool) (w : World) (handle offset whence out : Nat) :
    lfsc_status × Nat × World :=
  let a := lfsc_write_command be w handle LFSC_CSEEK
  if !a.1 then (LFSC_SERR_WRITE_PIPE, out, a.2)
  else
    let b := lfsc_write_int be a.2 (toMem be 8 offset) 8
    if !b.1 then (LFSC_SERR_WRITE_PIPE, out, b.2)
    else
      let c := lfsc_write_int be b.2 (toMem be 4 whence) 4
      if !c.1 then (LFSC_SERR_WRITE_PIPE, out, c.2)
      else
        let s := lfsc_check_status be c.2
        if s.1 ≠ LFSC_SOK then (s.1, out, s.2)
        else
          let r := lfsc_read_int be s.2 8
          if !r.1 then (LFSC_SERR_READ_PIPE, ofMem be r.2.1, r.2.2)
          else (LFSC_SOK, ofMem be r.2.1, r.2.2)

/-- Memory image of a wide string of UTF-16 code units (`sizeof(wchar_t)` is 2). -/
def wcharMem (be : Bool) (name : List Nat) : List Nat :=
  (name.map (toMem be 2)).flatten

/-- Function `wcslen` on a string given by its code units before the terminator. -/
def wcslen (name : List Nat) : Nat := name.length

/-- Function `lfsc_ctx_fopen`. `ctx` is the address of the context, `out_file`
the value of `*out_file` before the call, `calloc_ok` whether the allocation
of the file object succeeds. The product `wcslen(name) * sizeof(wchar_t)` is
converted to the `int32_t` parameter of `lfsc_write_string`.
Result: (status, `*out_file` afterwards, new state). -/
def lfsc_ctx_fopen (be : Bool) (ctx : Nat) (w : World) (out_file : Option lfsc_file)
    (name : List Nat) (calloc_ok : Bool) : lfsc_status × Option lfsc_file × World :=
  let w0 := WaitForSingleObject w
  let a := lfsc_write_int be w0 (toMem be 4 lfsc_magic) 4
  if !a.1 then (LFSC_SERR_WRITE_PIPE, out_file, ReleaseMutex a.2)
  else
    let b := lfsc_write_int be a.2 (toMem be 4 LFSC_COPEN.code) 4
    if !b.1 then (LFSC_SERR_WRITE_PIPE, out_file, ReleaseMutex b.2)
    else
      let c := lfsc_write_string be b.2 (wcharMem be name) ((wcslen name * 2) % 2 ^ 32)
      if !c.1 then (LFSC_SERR_WRITE_PIPE, out_file, ReleaseMutex c.2)
      else
        let s := lfsc_check_status be c.2
        if s.1 ≠ LFSC_SOK then (s.1, out_file, ReleaseMutex s.2)
        else
          let r := lfsc_read_int be s.2 8
          if !r.1 then (LFSC_SERR_READ_PIPE, out_file, ReleaseMutex r.2.2)
          else if !calloc_ok then (LFSC_SERR_ALLOC, none, ReleaseMutex r.2.2)
          else (LFSC_SOK, some { ctx := ctx, handle := ofMem be r.2.1 }, ReleaseMutex r.2.2)

/-- Function `lfsc_read`. Result: (return value, bytes stored at `ptr`, new state). -/
def lfsc_read (be : Bool) (w : World) (stream : lfsc_file) (size : Nat) :
    Nat × List Nat × World :=
  let w0 := WaitForSingleObject w
  let a := lfsc_write_command be w0 stream.handle LFSC_CREAD
  if !a.1 then (0, [], ReleaseMutex a.2)
  else
    let size32 := size % 2 ^ 32
    let b := lfsc_write_int be a.2 (toMem be 4 size32) 4
    if !b.1 then (0, [], ReleaseMutex b.2)
    else
      let s := lfsc_check_status be b.2
      if s.1 ≠ LFSC_SOK then (0, [], ReleaseMutex s.2)
      else
        let r := lfsc_read_int be s.2 4
        if !r.1 then (0, [], ReleaseMutex r.2.2)
        else
          let recv_size := ofMem be r.2.1
          if recv_size > 0 then
            let d := ReadFile r.2.2 recv_size
            if !d.1 then (0, d.2.1, ReleaseMutex d.2.2)
            else (d.2.1.length, d.2.1, ReleaseMutex d.2.2)
          else (0, [], ReleaseMutex r.2.2)

/-- Function `lfsc_fseek`. `offset` is the value of the `long` argument and
`whence` of the `int` argument; they are converted to `int64_t` and `int32_t`.
The local `out` is uninitialised (taken as 0) and always assigned before it is
returned; the `int64_t` is converted to the `int` return type (32 bits,
wrapping). Result: (return value, new state). -/
def lfsc_fseek (be : Bool) (w : World) (stream : lfsc_file) (offset whence : Int) :
    Int × World :=
  let w0 := WaitForSingleObject w
  let r := lfsc_local_seek be w0 stream.handle (toPattern 64 offset) (toPattern 32 whence) 0
  let out := if r.1 ≠ LFSC_SOK then toPattern 64 (-1) else r.2.1
  (toSigned 32 (out % 2 ^ 32), ReleaseMutex r.2.2)

/-- Function `lfsc_fread`. `SZ` is the width of `size_t` in bits (32 or 64);
`long` has 32 bits. `read` is converted to `size_t` in the comparison, in
`read % nmemb` and in `read / nmemb`; the negated difference is converted to
the `long` parameter of `lfsc_fseek`.
Result: (return value, bytes stored at `ptr`, new state). -/
def lfsc_fread (be : Bool) (SZ : Nat) (w : World) (stream : lfsc_file) (size nmemb : Nat) :
    Nat × List Nat × World :=
  let total := (size * nmemb) % 2 ^ SZ
  let r := lfsc_read be w stream total
  let read : Int := toSigned 32 (r.1 % 2 ^ 32)
  let readU := toPattern SZ read
  if readU ≠ total then
    let neg := toPattern SZ (-((readU - readU % nmemb : Nat) : Int))
    let k := lfsc_fseek be r.2.2 stream (toSigned 32 (neg % 2 ^ 32)) SEEK_CUR
    (readU / nmemb, r.2.1, k.2)
  else (readU / nmemb, r.2.1, r.2.2)

/-- Function `lfsc_write`. `ptr` is the caller's buffer; `WriteFile` takes the
size as a `DWORD`. Result: (return value, new state). -/
def lfsc_write (be : Bool) (w : World) (stream : lfsc_file) (ptr : List Nat) (size : Nat) :
    Nat × World :=
  let w0 := WaitForSingleObject w
  let a := lfsc_write_command be w0 stream.handle LFSC_CWRITE
  if !a.1 then (0, ReleaseMutex a.2)
  else
    let size32 := size % 2 ^ 32
    let b := lfsc_write_int be a.2 (toMem be 4 size32) 4
    if !b.1 then (0, ReleaseMutex b.2)
    else
      let d := WriteFile b.2 ptr (size % 2 ^ 32)
      if !d.1 then (0, ReleaseMutex d.2.2)
      else
        let s := lfsc_check_status be d.2.2
        if s.1 ≠ LFSC_SOK then (0, ReleaseMutex s.2)
        else (d.2.1, ReleaseMutex s.2)

/-- Function `lfsc_fwrite`. -/
def lfsc_fwrite (be : Bool) (SZ : Nat) (w : World) (stream : lfsc_file) (ptr : List Nat)
    (size nmemb : Nat) : Nat × World :=
  let total := (size * nmemb) % 2 ^ SZ
  let r := lfsc_write be w stream ptr total
  if r.1 = total then (nmemb, r.2) else (0, r.2)

/-- Function `lfsc_fflush`. -/
def lfsc_fflush (be : Bool) (w : World) (stream : lfsc_file) : Int × World :=
  let w0 := WaitForSingleObject w
  let a := lfsc_write_command be w0 stream.handle LFSC_CCLOSE
  if !a.1 then (EOF, ReleaseMutex a.2)
  else
    let s := lfsc_check_status be a.2
    if s.1 ≠ LFSC_SOK then (EOF, ReleaseMutex s.2)
    else (0, ReleaseMutex s.2)

/-- Function `lfsc_fclose`. -/
def lfsc_fclose (be : Bool) (w : World) (stream : lfsc_file) : Int × World :=
  let w0 := WaitForSingleObject w
  let a := lfsc_write_command be w0 stream.handle LFSC_CCLOSE
  if !a.1 then (EOF, ReleaseMutex a.2)
  else
    let s := lfsc_check_status be a.2
    if s.1 ≠ LFSC_SOK then (EOF, ReleaseMutex s.2)
    else (0, ReleaseMutex s.2)

/-- Function `lfsc_get_length`. `SZ` is the width of `size_t` in bits: the
`uint64_t` result is converted to the `size_t` return type. -/
def lfsc_get_length (be : Bool) (SZ : Nat) (w : World) (stream : lfsc_file) : Nat × World :=
  let w0 := WaitForSingleObject w
  let a := lfsc_write_command be w0 stream.handle LFSC_CGET_LENGTH
  if !a.1 then (0, ReleaseMutex a.2)
  else
    let s := lfsc_check_status be a.2
    if s.1 ≠ LFSC_SOK then (0, ReleaseMutex s.2)
    else
      let r := lfsc_read_int be s.2 8
      if !r.1 then (0, ReleaseMutex r.2.2)
      else (ofMem be r.2.1 % 2 ^ SZ, ReleaseMutex r.2.2)

/-- Function `lfsc_get_flags`. `out_flags` is the bit pattern of `*out_flags`
before the call; `ret` starts as `LFSC_SOK`, and `LFSC_TRY(s == LFSC_SOK, 0)`
stores the integer 0 in it. The exchanges run in the order of the source:
can-seek, can-write, can-read. Result: (status, `*out_flags` afterwards, new
state). -/
def lfsc_get_flags (be : Bool) (w : World) (stream : lfsc_file) (out_flags : Nat) :
    lfsc_status × Nat × World :=
  let w0 := WaitForSingleObject w
  let a1 := lfsc_write_command be w0 stream.handle LFSC_CGET_CAN_SEEK
  if !a1.1 then (LFSC_SERR_WRITE_PIPE, out_flags, ReleaseMutex a1.2)
  else
    let s1 := lfsc_check_status be a1.2
    if s1.1 ≠ LFSC_SOK then (lfsc_status.ofCode 0, out_flags, ReleaseMutex s1.2)
    else
      let r1 := lfsc_read_int be s1.2 1
      if !r1.1 then (LFSC_SERR_READ_PIPE, out_flags, ReleaseMutex r1.2.2)
      else
        let can_seek := ofMem be r1.2.1
        let a2 := lfsc_write_command be r1.2.2 stream.handle LFSC_CGET_CAN_WRITE
        if !a2.1 then (LFSC_SERR_WRITE_PIPE, out_flags, ReleaseMutex a2.2)
        else
          let s2 := lfsc_check_status be a2.2
          if s2.1 ≠ LFSC_SOK then (lfsc_status.ofCode 0, out_flags, ReleaseMutex s2.2)
          else
            let r2 := lfsc_read_int be s2.2 1
            if !r2.1 then (LFSC_SERR_READ_PIPE, out_flags, ReleaseMutex r2.2.2)
            else
              let can_write := ofMem be r2.2.1
              let a3 := lfsc_write_command be r2.2.2 stream.handle LFSC_CGET_CAN_READ
              if !a3.1 then (LFSC_SERR_WRITE_PIPE, out_flags, ReleaseMutex a3.2)
              else
                let s3 := lfsc_check_status be a3.2
                if s3.1 ≠ LFSC_SOK then (lfsc_status.ofCode 0, out_flags, ReleaseMutex s3.2)
                else
                  let r3 := lfsc_read_int be s3.2 1
                  if !r3.1 then (LFSC_SERR_READ_PIPE, out_flags, ReleaseMutex r3.2.2)
                  else
                    let can_read := ofMem be r3.2.1
                    let f1 := if can_seek ≠ 0 then out_flags ||| LFSC_CAN_SEEK else out_flags
                    let f2 := if can_read ≠ 0 then f1 ||| LFSC_CAN_READ else f1
                    let f3 := if can_write ≠ 0 then f2 ||| LFSC_CAN_WRITE else f2
                    (LFSC_SOK, f3, ReleaseMutex r3.2.2)

/-- Whether the transport still accepts `n` more bytes. -/
def World.fits (w : World) (n : Nat) : Bool :=
  match w.room with
  | none => true
  | some r => decide (n ≤ r)

/-- The step from `w` to `v` leaves the hold count of the mutex alone and, when
the mutex is held in `w`, issues no transport call that counts as unguarded. -/
def World.guards (w v : World) : Prop :=
  v.mutex = w.mutex ∧ (0 < w.mutex → v.bare = w.bare)

/-! ## Context life cycle (`lfsc.c`, lines 29-33 and 157-211) -/

/-- Constant `INVALID_HANDLE_VALUE` of `windows.h`, the handle `(HANDLE)-1`. -/
def INVALID_HANDLE_VALUE : Int := -1

/-- Structure `lfsc_ctx`: the two handles, as integers. -/
structure lfsc_ctx where
  pipe : Int
  mutex : Int
  deriving DecidableEq, Repr

/-- The operating system as `lfsc_ctx_connect` and `lfsc_ctx_disconnect` see it.

* `WaitNamedPipeW name timeout`: whether the endpoint becomes available in time;
* `CreateFileW name`: the handle that opening the endpoint yields
  (`INVALID_HANDLE_VALUE` when it cannot be opened);
* `opened`: the names passed to `CreateFileW` so far, in order;
* `closed`: the handles passed to `CloseHandle` so far, in order;
* `held`: number of times the calling thread holds `ctx->mutex`. -/
structure Sys where
  WaitNamedPipeW : List Nat → Int → Bool
  CreateFileW : List Nat → Int
  opened : List (List Nat)
  closed : List Int
  held : Nat

/-- Function `lfsc_ctx_create`; `mutex` is the handle `CreateMutex` returns
(the allocation is taken to succeed). -/
def lfsc_ctx_create (mutex : Int) : lfsc_ctx :=
  { pipe := INVALID_HANDLE_VALUE, mutex := mutex }

/-- Function `lfsc_ctx_connect`. Result: (status, context afterwards, system
afterwards). -/
def lfsc_ctx_connect (ctx : lfsc_ctx) (sys : Sys) (name : List Nat) (ms_timeout : Int) :
    lfsc_status × lfsc_ctx × Sys :=
  let sys0 := { sys with held := sys.held + 1 }
  if !sys0.WaitNamedPipeW name ms_timeout then
    (LFSC_SERR_BUSY, ctx, { sys0 with held := sys0.held - 1 })
  else
    let sys1 := { sys0 with opened := sys0.opened ++ [name] }
    let ctx1 := { ctx with pipe := sys1.CreateFileW name }
    if ctx1.pipe = INVALID_HANDLE_VALUE then
      (LFSC_SERR_OPEN_PIPE, ctx1, { sys1 with held := sys1.held - 1 })
    else
      (LFSC_SOK, ctx1, { sys1 with held := sys1.held - 1 })

/-- Function `lfsc_ctx_disconnect`. Result: (status, context afterwards, system
afterwards). -/
def lfsc_ctx_disconnect (ctx : lfsc_ctx) (sys : Sys) : lfsc_status × lfsc_ctx × Sys :=
  let sys1 := if ctx.pipe ≠ INVALID_HANDLE_VALUE then
      { sys with closed := sys.closed ++ [ctx.pipe] }
    else sys
  (LFSC_SOK, { ctx with pipe := INVALID_HANDLE_VALUE }, sys1)

/-! ## Codec lemmas -/

theorem leBytes_length (w v : Nat) : (leBytes w v).length = w := by
  induction w generalizing v with
  | zero => rfl
  | succ n ih => simp [leBytes, ih]

theorem leVal_leBytes (w v : Nat) : leVal (leBytes w v) = v % 256 ^ w := by
  induction w generalizing v with
  | zero => simp [leBytes, leVal, Nat.mod_one]
  | succ n ih =>
    simp only [leBytes, leVal, ih]
    rw [pow_succ, mul_comm (256 ^ n) 256, Nat.mod_mul]

theorem leBytes_getElem? (w v i : Nat) (h : i < w) :
    (leBytes w v)[i]? = some (v / 256 ^ i % 256) := by
  induction w generalizing v i with
  | zero => omega
  | succ n ih =>
    cases i with
    | zero => simp [leBytes]
    | succ j =>
      simp only [leBytes, List.getElem?_cons_succ]
      rw [ih _ _ (by omega), Nat.div_div_eq_div_mul, pow_succ, mul_comm]

theorem range_flip_eq_reverse (src : List Nat) (size : Nat) (h : src.length = size) :
    (List.range size).map (fun i => src.getD (size - 1 - i) 0) = src.reverse := by
  apply List.ext_getElem
  · simp [h]
  · intro i h1 h2
    simp only [List.length_map, List.length_range] at h1
    simp only [List.getElem_map, List.getElem_range, List.getElem_reverse]
    rw [List.getD_eq_getElem?_getD, List.getElem?_eq_getElem (by omega)]
    simp [h]

theorem flip_toMem (be : Bool) (w v : Nat) :
    lfsc_flip_int_copy be (toMem be w v) w = leBytes w v := by
  cases be
  · have : (toMem false 4 1).headD 1 ≠ 0 := by decide
    simp only [lfsc_flip_int_copy, if_neg this]
    simp [toMem, List.take_of_length_le, leBytes_length]
  · have : (toMem true 4 1).headD 1 = 0 := by decide
    simp only [lfsc_flip_int_copy, if_pos this]
    rw [range_flip_eq_reverse _ _ (by simp [toMem, leBytes_length])]
    simp [toMem]

theorem ofMem_flip (be : Bool) (buf : List Nat) (n : Nat) (h : buf.length = n) :
    ofMem be (lfsc_flip_int_copy be buf n) = leVal buf := by
  cases be
  · have : (toMem false 4 1).headD 1 ≠ 0 := by decide
    simp only [lfsc_flip_int_copy, if_neg this]
    simp [ofMem, List.take_of_length_le, h]
  · have : (toMem true 4 1).headD 1 = 0 := by decide
    simp only [lfsc_flip_int_copy, if_pos this]
    rw [range_flip_eq_reverse _ _ h]
    simp [ofMem]

/-! ## Transport lemmas -/

@[simp] theorem after_inp (w : World) (k : Nat) (i o : List Nat) : (w.after k i o).inp = i := rfl

@[simp] theorem after_out (w : World) (k : Nat) (i o : List Nat) : (w.after k i o).out = o := rfl

@[simp] theorem after_room (w : World) (k : Nat) (i o : List Nat) :
    (w.after k i o).room = w.room := rfl

@[simp] theorem after_mutex (w : World) (k : Nat) (i o : List Nat) :
    (w.after k i o).mutex = w.mutex := rfl

@[simp] theorem after_accepting (w : World) (k : Nat) (i o : List Nat) :
    (w.after k i o).accepting ↔ w.accepting := Iff.rfl

@[simp] theorem after_after (w : World) (a b : Nat) (i o i2 o2 : List Nat) :
    (w.after a i o).after b i2 o2 = w.after (a + b) i2 o2 := by
  obtain ⟨inp, out, room, mutex, bare⟩ := w
  simp only [World.after]
  by_cases h : mutex = 0 <;> simp [h, Nat.add_assoc]

@[simp] theorem wait_inp (w : World) : (WaitForSingleObject w).inp = w.inp := rfl

@[simp] theorem wait_out (w : World) : (WaitForSingleObject w).out = w.out := rfl

@[simp] theorem wait_accepting (w : World) : (WaitForSingleObject w).accepting ↔ w.accepting :=
  Iff.rfl

@[simp] theorem release_wait_after (w : World) (k : Nat) (i o : List Nat) :
    ReleaseMutex ((WaitForSingleObject w).after k i o) = w.after 0 i o := by
  obtain ⟨inp, out, room, mutex, bare⟩ := w
  simp [World.after, WaitForSingleObject, ReleaseMutex]

theorem WriteFile_accepting (w : World) (buf : List Nat) (n : Nat) (h : w.accepting) :
    WriteFile w buf n = (true, n, w.after 1 w.inp (w.out ++ buf.take n)) := by
  obtain ⟨inp, out, room, mutex, bare⟩ := w
  simp only [World.accepting] at h
  subst h
  simp only [WriteFile, World.touch, World.after, Option.map_none']
  have : (n = 0 ∨ 0 < n) := by omega
  simp [this]

theorem lfsc_write_int_accepting (be : Bool) (w : World) (n v : Nat) (h : w.accepting) :
    lfsc_write_int be w (toMem be n v) n = (true, w.after 1 w.inp (w.out ++ leBytes n v)) := by
  simp only [lfsc_write_int, WriteFile_accepting _ _ _ h, flip_toMem]
  simp [List.take_of_length_le, leBytes_length]

theorem ReadFile_full (w : World) (bs rest : List Nat) (h : w.inp = bs ++ rest) :
    ReadFile w bs.length = (true, bs, w.after 1 rest w.out) := by
  obtain ⟨inp, out, room, mutex, bare⟩ := w
  simp only at h
  subst h
  simp only [ReadFile, World.touch, World.after, List.take_left', List.drop_left']
  have : (bs = [] ∨ 0 < bs.length) := by
    cases bs with
    | nil => exact Or.inl rfl
    | cons a t => exact Or.inr (by simp)
  simp [this]

theorem lfsc_read_int_full (be : Bool) (w : World) (bs rest : List Nat) (n : Nat)
    (hn : bs.length = n) (h : w.inp = bs ++ rest) :
    lfsc_read_int be w n = (true, lfsc_flip_int_copy be bs n, w.after 1 rest w.out) := by
  subst hn
  simp only [lfsc_read_int, ReadFile_full w bs rest h]
  simp

theorem lfsc_read_int_short (be : Bool) (w : World) (n : Nat) (h : w.inp.length < n) :
    (lfsc_read_int be w n).1 = false := by
  simp only [lfsc_read_int, ReadFile]
  simp
  intro _
  omega

/-- Reading the little-endian bytes of a value that fits yields the value. -/
theorem lfsc_read_int_leBytes (be : Bool) (w : World) (n v : Nat) (rest : List Nat)
    (hv : v < 256 ^ n) (h : w.inp = leBytes n v ++ rest) :
    (lfsc_read_int be w n).1 = true ∧ ofMem be (lfsc_read_int be w n).2.1 = v ∧
    (lfsc_read_int be w n).2.2 = w.after 1 rest w.out := by
  rw [lfsc_read_int_full be w _ rest n (leBytes_length n v) h]
  refine ⟨rfl, ?_, rfl⟩
  simp only
  rw [ofMem_flip be _ n (leBytes_length n v), leVal_leBytes, Nat.mod_eq_of_lt hv]

/-! ## Wire codec: round trip and byte order -/

/-- C1: on either host, the bytes that `lfsc_write_int` puts on a transport that
accepts everything are read back by `lfsc_read_int` of the same width as the
same memory image, hence the same value, and both calls report success. -/
theorem lfsc_int_roundtrip (be : Bool) (n v : Nat) (w r : World) (rest : List Nat)
    (hv : v < 256 ^ n) (hw : w.accepting)
    (hr : r.inp = (lfsc_write_int be w (toMem be n v) n).2.out.drop w.out.length ++ rest) :
    (lfsc_write_int be w (toMem be n v) n).1 = true ∧
    (lfsc_read_int be r n).1 = true ∧
    (lfsc_read_int be r n).2.1 = toMem be n v ∧
    ofMem be (lfsc_read_int be r n).2.1 = v ∧
    (lfsc_read_int be r n).2.2.inp = rest := by
  rw [lfsc_write_int_accepting be w n v hw] at hr
  simp only [after_out, List.drop_left'] at hr
  have hlen := leBytes_length n v
  have hread := lfsc_read_int_full be r (leBytes n v) rest n hlen hr
  have hval : ofMem be (lfsc_flip_int_copy be (leBytes n v) n) = v := by
    rw [ofMem_flip be _ n hlen, leVal_leBytes, Nat.mod_eq_of_lt hv]
  have himg : lfsc_flip_int_copy be (leBytes n v) n = toMem be n v := by
    cases be
    · have : (toMem false 4 1).headD 1 ≠ 0 := by decide
      simp only [lfsc_flip_int_copy, if_neg this]
      simp [toMem, List.take_of_length_le, hlen]
    · have : (toMem true 4 1).headD 1 = 0 := by decide
      simp only [lfsc_flip_int_copy, if_pos this]
      rw [range_flip_eq_reverse _ _ hlen]
      simp [toMem]
  refine ⟨?_, ?_, ?_, ?_, ?_⟩
  · rw [lfsc_write_int_accepting be w n v hw]
  · rw [hread]
  · rw [hread]; exact himg
  · rw [hread]; exact hval
  · rw [hread]; rfl

/-- Witness of C1: the 4-byte value 0x01020304 on a big-endian host. -/
theorem lfsc_int_roundtrip_witness :
    (lfsc_write_int true ⟨[], [], none, 0, 0⟩ (toMem true 4 0x01020304) 4).1 = true ∧
    (lfsc_read_int true ⟨[4, 3, 2, 1, 9], [], none, 0, 0⟩ 4).1 = true ∧
    (lfsc_read_int true ⟨[4, 3, 2, 1, 9], [], none, 0, 0⟩ 4).2.1 = toMem true 4 0x01020304 ∧
    ofMem true (lfsc_read_int true ⟨[4, 3, 2, 1, 9], [], none, 0, 0⟩ 4).2.1 = 0x01020304 ∧
    (lfsc_read_int true ⟨[4, 3, 2, 1, 9], [], none, 0, 0⟩ 4).2.2.inp = [9] :=
  lfsc_int_roundtrip true 4 0x01020304 ⟨[], [], none, 0, 0⟩ ⟨[4, 3, 2, 1, 9], [], none, 0, 0⟩ [9]
    (by decide) (by decide) (by decide)

/-- C2: the bytes `lfsc_write_int` appends to a transport that accepts
everything are the same on a big-endian and on a little-endian host, there are
`n` of them, and byte `i` is `(v / 256 ^ i) % 256`. -/
theorem lfsc_write_int_little_endian (n v : Nat) (w : World) (hw : w.accepting) :
    (lfsc_write_int true w (toMem true n v) n).2.out
      = (lfsc_write_int false w (toMem false n v) n).2.out ∧
    ∀ be : Bool, ∃ bytes : List Nat,
      (lfsc_write_int be w (toMem be n v) n).2.out = w.out ++ bytes ∧
      bytes.length = n ∧
      ∀ i, i < n → bytes[i]? = some (v / 256 ^ i % 256) := by
  refine ⟨?_, ?_⟩
  · rw [lfsc_write_int_accepting true w n v hw, lfsc_write_int_accepting false w n v hw]
  · intro be
    refine ⟨leBytes n v, ?_, leBytes_length n v, fun i hi => leBytes_getElem? n v i hi⟩
    rw [lfsc_write_int_accepting be w n v hw]
    rfl

/-- Witness of C2: the 4-byte value 0x01020304. -/
theorem lfsc_write_int_little_endian_witness :
    (lfsc_write_int true ⟨[], [7], none, 0, 0⟩ (toMem true 4 0x01020304) 4).2.out
      = (lfsc_write_int false ⟨[], [7], none, 0, 0⟩ (toMem false 4 0x01020304) 4).2.out ∧
    ∀ be : Bool, ∃ bytes : List Nat,
      (lfsc_write_int be ⟨[], [7], none, 0, 0⟩ (toMem be 4 0x01020304) 4).2.out
        = [7] ++ bytes ∧
      bytes.length = 4 ∧
      ∀ i, i < 4 → bytes[i]? = some (0x01020304 / 256 ^ i % 256) :=
  lfsc_write_int_little_endian 4 0x01020304 ⟨[], [7], none, 0, 0⟩ (by decide)

/-! ## Command header -/

theorem lfsc_write_command_accepting (be : Bool) (w : World) (handle : Nat) (cmd : lfsc_cmd)
    (h : w.accepting) :
    lfsc_write_command be w handle cmd
      = (true, w.after 3 w.inp
          (w.out ++ (leBytes 4 lfsc_magic ++ leBytes 4 cmd.code ++ leBytes 8 handle))) := by
  simp [lfsc_write_command, lfsc_write_int_accepting, h, List.append_assoc]

/-- C3: on a transport that accepts everything `lfsc_write_command` returns
true and appends exactly 16 bytes: the magic 0xaa55aa55, the opcode and the
handle id, least significant byte first, in 4, 4 and 8 bytes; the opcodes are
numbered 0 to 11 in the order disconnect, open, close, read, write, seek,
get_length, set_length, flush, get_can_seek, get_can_read, get_can_write. -/
theorem lfsc_write_command_layout (be : Bool) (w : World) (handle : Nat) (cmd : lfsc_cmd)
    (hw : w.accepting) :
    (lfsc_write_command be w handle cmd).1 = true ∧
    (lfsc_write_command be w handle cmd).2.out
      = w.out ++ ([0x55, 0xaa, 0x55, 0xaa] ++ leBytes 4 cmd.code ++ leBytes 8 handle) ∧
    ([0x55, 0xaa, 0x55, 0xaa] ++ leBytes 4 cmd.code ++ leBytes 8 handle).length = 16 ∧
    leVal [0x55, 0xaa, 0x55, 0xaa] = 0xaa55aa55 ∧
    [LFSC_CDISCONNECT, LFSC_COPEN, LFSC_CCLOSE, LFSC_CREAD, LFSC_CWRITE, LFSC_CSEEK,
      LFSC_CGET_LENGTH, LFSC_CSET_LENGTH, LFSC_CFLUSH, LFSC_CGET_CAN_SEEK,
      LFSC_CGET_CAN_READ, LFSC_CGET_CAN_WRITE].map lfsc_cmd.code
      = [0, 1, 2, 3, 4, 5, 6, 7, 8, 9, 10, 11] := by
  rw [lfsc_write_command_accepting be w handle cmd hw]
  have hm : leBytes 4 lfsc_magic = [0x55, 0xaa, 0x55, 0xaa] := by decide
  refine ⟨rfl, ?_, ?_, by decide, by decide⟩
  · simp [hm]
  · simp [leBytes_length]

/-- Witness of C3: the seek command for handle 0x1122334455667788. -/
theorem lfsc_write_command_layout_witness :
    (lfsc_write_command true ⟨[], [], none, 0, 0⟩ 0x1122334455667788 LFSC_CSEEK).1 = true ∧
    (lfsc_write_command true ⟨[], [], none, 0, 0⟩ 0x1122334455667788 LFSC_CSEEK).2.out
      = [] ++ ([0x55, 0xaa, 0x55, 0xaa] ++ leBytes 4 LFSC_CSEEK.code
          ++ leBytes 8 0x1122334455667788) ∧
    ([0x55, 0xaa, 0x55, 0xaa] ++ leBytes 4 LFSC_CSEEK.code
      ++ leBytes 8 0x1122334455667788).length = 16 ∧
    leVal [0x55, 0xaa, 0x55, 0xaa] = 0xaa55aa55 ∧
    [LFSC_CDISCONNECT, LFSC_COPEN, LFSC_CCLOSE, LFSC_CREAD, LFSC_CWRITE, LFSC_CSEEK,
      LFSC_CGET_LENGTH, LFSC_CSET_LENGTH, LFSC_CFLUSH, LFSC_CGET_CAN_SEEK,
      LFSC_CGET_CAN_READ, LFSC_CGET_CAN_WRITE].map lfsc_cmd.code
      = [0, 1, 2, 3, 4, 5, 6, 7, 8, 9, 10, 11] :=
  lfsc_write_command_layout true ⟨[], [], none, 0, 0⟩ 0x1122334455667788 LFSC_CSEEK (by decide)


/-! ## Response header -/

theorem take_append_len (m rest : List Nat) (n : Nat) (h : m.length = n) :
    (m ++ rest).take n = m := by
  subst h; exact List.take_left' rfl

theorem drop_append_len (m rest : List Nat) (n : Nat) (h : m.length = n) :
    (m ++ rest).drop n = rest := by
  subst h; exact List.drop_left' rfl

theorem lfsc_read_int_eval (be : Bool) (w : World) (n : Nat) (hn : 0 < n) :
    lfsc_read_int be w n
      = (decide (n ≤ w.inp.length),
         lfsc_flip_int_copy be (w.inp.take n ++ List.replicate (n - (w.inp.take n).length) 0) n,
         w.after 1 (w.inp.drop n) w.out) := by
  obtain ⟨inp, out, room, mutex, bare⟩ := w
  simp only [lfsc_read_int, ReadFile, World.touch, World.after, Prod.mk.injEq, and_true]
  rw [Bool.eq_iff_iff]
  simp only [List.length_take, Bool.and_eq_true, decide_eq_true_eq]
  omega

theorem lfsc_check_status_eval (be : Bool) (w : World) :
    lfsc_check_status be w =
      if w.inp.length < 4 then (LFSC_SERR_READ_PIPE, w.after 1 [] w.out)
      else if leVal (w.inp.take 4) ≠ lfsc_magic then
        (LFSC_SERR_BAD_MAGIC, w.after 1 (w.inp.drop 4) w.out)
      else if w.inp.length < 8 then (LFSC_SERR_READ_PIPE, w.after 2 [] w.out)
      else if leVal ((w.inp.drop 4).take 4) ≠ 0 then
        (LFSC_SERR_OPERATION_FAILED, w.after 2 (w.inp.drop 8) w.out)
      else (LFSC_SOK, w.after 2 (w.inp.drop 8) w.out) := by
  simp only [lfsc_check_status, lfsc_read_int_eval be _ 4 (by decide)]
  by_cases h1 : w.inp.length < 4
  · have : ¬ (4 ≤ w.inp.length) := by omega
    simp [h1, this, List.drop_eq_nil_of_le (Nat.le_of_lt h1)]
  · have h1' : 4 ≤ w.inp.length := by omega
    have ht : (w.inp.take 4).length = 4 := by simp [h1']
    simp only [h1, h1', if_false, decide_True, Bool.not_true, Bool.false_eq_true, ht,
      Nat.sub_self, List.replicate_zero, List.append_nil, ofMem_flip be _ 4 ht]
    by_cases h2 : leVal (w.inp.take 4) = lfsc_magic
    · simp only [h2, ne_eq, not_true_eq_false, if_false, after_inp, after_out, after_after]
      by_cases h3 : w.inp.length < 8
      · have : ¬ (4 ≤ (w.inp.drop 4).length) := by simp; omega
        have hd : List.drop 4 (List.drop 4 w.inp) = [] := by
          apply List.drop_eq_nil_of_le; simp; omega
        simp only [h3, this, hd, if_true, decide_False, Bool.not_false, List.drop_drop]
      · have h3' : 4 ≤ (w.inp.drop 4).length := by simp; omega
        have ht2 : ((w.inp.drop 4).take 4).length = 4 := by simp; omega
        simp only [h3, h3', if_false, decide_True, Bool.not_true, Bool.false_eq_true, ht2,
          Nat.sub_self, List.replicate_zero, List.append_nil, ofMem_flip be _ 4 ht2,
          LFSC_OPERATION_SUCCESSFUL, List.drop_drop]
    · simp [h2]

/-- C4: `lfsc_check_status` on any input stream. A short first read gives
`LFSC_SERR_READ_PIPE`; four bytes that do not decode to 0xaa55aa55 give
`LFSC_SERR_BAD_MAGIC` and only those four bytes are consumed; a matching magic
followed by a short second read gives `LFSC_SERR_READ_PIPE`; a matching magic
followed by a non-zero status word gives `LFSC_SERR_OPERATION_FAILED`; the
result is `LFSC_SOK` exactly when the magic matches and the status word is 0;
bad magic and operation failed are different codes. -/
theorem lfsc_check_status_spec (be : Bool) (w : World) :
    (w.inp.length < 4 → (lfsc_check_status be w).1 = LFSC_SERR_READ_PIPE) ∧
    (∀ m rest, w.inp = m ++ rest → m.length = 4 → leVal m ≠ 0xaa55aa55 →
      (lfsc_check_status be w).1 = LFSC_SERR_BAD_MAGIC ∧
      (lfsc_check_status be w).2.inp = rest) ∧
    (∀ m t, w.inp = m ++ t → m.length = 4 → leVal m = 0xaa55aa55 → t.length < 4 →
      (lfsc_check_status be w).1 = LFSC_SERR_READ_PIPE) ∧
    (∀ m s rest, w.inp = m ++ s ++ rest → m.length = 4 → s.length = 4 →
      leVal m = 0xaa55aa55 → leVal s ≠ 0 →
      (lfsc_check_status be w).1 = LFSC_SERR_OPERATION_FAILED ∧
      (lfsc_check_status be w).2.inp = rest) ∧
    ((lfsc_check_status be w).1 = LFSC_SOK ↔
      ∃ m s rest, w.inp = m ++ s ++ rest ∧ m.length = 4 ∧ s.length = 4 ∧
        leVal m = 0xaa55aa55 ∧ leVal s = 0) ∧
    LFSC_SERR_BAD_MAGIC ≠ LFSC_SERR_OPERATION_FAILED := by
  rw [lfsc_check_status_eval]
  refine ⟨?_, ?_, ?_, ?_, ?_, by decide⟩
  · intro h
    simp [h]
  · intro m rest hin hm hne
    have h1 : ¬ w.inp.length < 4 := by rw [hin]; simp only [List.length_append]; omega
    have h2 : w.inp.take 4 = m := by rw [hin, take_append_len m _ 4 hm]
    have h3 : w.inp.drop 4 = rest := by rw [hin, drop_append_len m _ 4 hm]
    simp [h1, h2, h3, hne, lfsc_magic]
  · intro m t hin hm hmag ht
    have h1 : ¬ w.inp.length < 4 := by rw [hin]; simp only [List.length_append]; omega
    have h2 : w.inp.take 4 = m := by rw [hin, take_append_len m _ 4 hm]
    have h4 : w.inp.length < 8 := by rw [hin]; simp only [List.length_append]; omega
    simp [h1, h2, hmag, lfsc_magic, h4]
  · intro m s rest hin hm hs hmag hst
    have h1 : ¬ w.inp.length < 4 := by rw [hin]; simp only [List.length_append]; omega
    have h2 : w.inp.take 4 = m := by
      rw [hin, List.append_assoc, take_append_len m _ 4 hm]
    have h3 : w.inp.drop 4 = s ++ rest := by
      rw [hin, List.append_assoc, drop_append_len m _ 4 hm]
    have h4 : ¬ w.inp.length < 8 := by rw [hin]; simp only [List.length_append]; omega
    have h5 : (w.inp.drop 4).take 4 = s := by rw [h3, take_append_len s _ 4 hs]
    have h6 : w.inp.drop 8 = rest := by
      have : w.inp.drop 8 = (w.inp.drop 4).drop 4 := by rw [List.drop_drop]
      rw [this, h3, drop_append_len s _ 4 hs]
    simp [h1, h2, h4, h5, h6, hmag, hst, lfsc_magic]
  · constructor
    · intro h
      by_cases h1 : w.inp.length < 4
      · simp [h1] at h
      · by_cases h2 : leVal (w.inp.take 4) = lfsc_magic
        · by_cases h3 : w.inp.length < 8
          · simp [h1, h2, h3] at h
          · by_cases h4 : leVal ((w.inp.drop 4).take 4) = 0
            · refine ⟨w.inp.take 4, (w.inp.drop 4).take 4, (w.inp.drop 4).drop 4, ?_, ?_, ?_,
                h2, h4⟩
              · rw [List.append_assoc, List.take_append_drop, List.take_append_drop]
              · simp; omega
              · simp; omega
            · simp [h1, h2, h3, h4] at h
        · simp [h1, h2] at h
    · rintro ⟨m, s, rest, hin, hm, hs, hmag, hst⟩
      have h1 : ¬ w.inp.length < 4 := by rw [hin]; simp only [List.length_append]; omega
      have h2 : w.inp.take 4 = m := by
        rw [hin, List.append_assoc, take_append_len m _ 4 hm]
      have h3 : w.inp.drop 4 = s ++ rest := by
        rw [hin, List.append_assoc, drop_append_len m _ 4 hm]
      have h4 : ¬ w.inp.length < 8 := by rw [hin]; simp only [List.length_append]; omega
      have h5 : (w.inp.drop 4).take 4 = s := by rw [h3, take_append_len s _ 4 hs]
      simp [h1, h2, h4, h5, hmag, hst, lfsc_magic]

/-- Witness of C4: a corrupted magic followed by a status word and a payload byte. -/
theorem lfsc_check_status_spec_witness :
    (lfsc_check_status true ⟨[0x55, 0xaa, 0x55, 0xab, 0, 0, 0, 0, 7], [], none, 0, 0⟩).1
      = LFSC_SERR_BAD_MAGIC ∧
    (lfsc_check_status true ⟨[0x55, 0xaa, 0x55, 0xab, 0, 0, 0, 0, 7], [], none, 0, 0⟩).2.inp
      = [0, 0, 0, 0, 7] :=
  (lfsc_check_status_spec true ⟨[0x55, 0xaa, 0x55, 0xab, 0, 0, 0, 0, 7], [], none, 0, 0⟩).2.1
    [0x55, 0xaa, 0x55, 0xab] [0, 0, 0, 0, 7] rfl rfl (by decide)


theorem lfsc_check_status_bad (be : Bool) (w : World) (m rest : List Nat)
    (hin : w.inp = m ++ rest) (hm : m.length = 4) (hne : leVal m ≠ lfsc_magic) :
    lfsc_check_status be w = (LFSC_SERR_BAD_MAGIC, w.after 1 rest w.out) := by
  have h1 : ¬ w.inp.length < 4 := by rw [hin]; simp only [List.length_append]; omega
  have h2 : w.inp.take 4 = m := by rw [hin, take_append_len m _ 4 hm]
  have h3 : w.inp.drop 4 = rest := by rw [hin, drop_append_len m _ 4 hm]
  rw [lfsc_check_status_eval]
  simp [h1, h2, h3, hne]

theorem lfsc_check_status_word (be : Bool) (w : World) (m s rest : List Nat)
    (hin : w.inp = m ++ s ++ rest) (hm : m.length = 4) (hs : s.length = 4)
    (hmag : leVal m = lfsc_magic) :
    lfsc_check_status be w
      = (if leVal s ≠ 0 then LFSC_SERR_OPERATION_FAILED else LFSC_SOK, w.after 2 rest w.out) := by
  have h1 : ¬ w.inp.length < 4 := by rw [hin]; simp only [List.length_append]; omega
  have h2 : w.inp.take 4 = m := by rw [hin, List.append_assoc, take_append_len m _ 4 hm]
  have h3 : w.inp.drop 4 = s ++ rest := by
    rw [hin, List.append_assoc, drop_append_len m _ 4 hm]
  have h4 : ¬ w.inp.length < 8 := by rw [hin]; simp only [List.length_append]; omega
  have h5 : (w.inp.drop 4).take 4 = s := by rw [h3, take_append_len s _ 4 hs]
  have h6 : w.inp.drop 8 = rest := by
    have : w.inp.drop 8 = (w.inp.drop 4).drop 4 := by rw [List.drop_drop]
    rw [this, h3, drop_append_len s _ 4 hs]
  rw [lfsc_check_status_eval]
  by_cases hst : leVal s = 0 <;> simp [h1, h2, h4, h5, h6, hmag, hst]

theorem lfsc_write_string_accepting (be : Bool) (w : World) (str : List Nat) (n : Nat)
    (h : w.accepting) :
    lfsc_write_string be w str n
      = (true, w.after 2 w.inp (w.out ++ (leBytes 4 n ++ str.take n))) := by
  simp [lfsc_write_string, lfsc_write_int_accepting, WriteFile_accepting, h, List.append_assoc]

/-! ## Status gating -/

@[simp] theorem WriteFile_inp (w : World) (buf : List Nat) (n : Nat) :
    (WriteFile w buf n).2.2.inp = w.inp := rfl

@[simp] theorem lfsc_write_int_inp (be : Bool) (w : World) (v : List Nat) (n : Nat) :
    (lfsc_write_int be w v n).2.inp = w.inp := rfl

@[simp] theorem lfsc_write_string_inp (be : Bool) (w : World) (str : List Nat) (n : Nat) :
    (lfsc_write_string be w str n).2.inp = w.inp := by
  simp only [lfsc_write_string]
  split <;> simp

@[simp] theorem lfsc_write_command_inp (be : Bool) (w : World) (handle : Nat) (cmd : lfsc_cmd) :
    (lfsc_write_command be w handle cmd).2.inp = w.inp := by
  simp only [lfsc_write_command]
  split_ifs <;> simp

@[simp] theorem release_inp (w : World) : (ReleaseMutex w).inp = w.inp := rfl

/-- C5: a response with the correct magic and a non-zero status word stops
`lfsc_ctx_fopen`, `lfsc_read`, `lfsc_local_seek` and `lfsc_get_length` at the
header. Whatever the transport accepts, each of them fails, leaves its output
(`*out_file`, the caller's buffer, `*out`) untouched and consumes either nothing
(a write was short) or exactly the 8 header bytes; on a transport that accepts
the request it consumes exactly the 8 header bytes and reports the failure
(`LFSC_SERR_OPERATION_FAILED`, or the return value 0). -/
theorem status_gating (be : Bool) (w : World) (m s rest : List Nat)
    (hin : w.inp = m ++ s ++ rest) (hm : m.length = 4) (hs : s.length = 4)
    (hmag : leVal m = 0xaa55aa55) (hst : leVal s ≠ 0) :
    (∀ ctx out_file name calloc_ok,
      (lfsc_ctx_fopen be ctx w out_file name calloc_ok).1 ≠ LFSC_SOK ∧
      (lfsc_ctx_fopen be ctx w out_file name calloc_ok).2.1 = out_file ∧
      ((lfsc_ctx_fopen be ctx w out_file name calloc_ok).2.2.inp = w.inp ∨
       (lfsc_ctx_fopen be ctx w out_file name calloc_ok).2.2.inp = rest) ∧
      (w.accepting →
        (lfsc_ctx_fopen be ctx w out_file name calloc_ok).1 = LFSC_SERR_OPERATION_FAILED ∧
        (lfsc_ctx_fopen be ctx w out_file name calloc_ok).2.2.inp = rest)) ∧
    (∀ stream size,
      (lfsc_read be w stream size).1 = 0 ∧
      (lfsc_read be w stream size).2.1 = [] ∧
      ((lfsc_read be w stream size).2.2.inp = w.inp ∨
       (lfsc_read be w stream size).2.2.inp = rest) ∧
      (w.accepting → (lfsc_read be w stream size).2.2.inp = rest)) ∧
    (∀ handle offset whence out,
      (lfsc_local_seek be w handle offset whence out).1 ≠ LFSC_SOK ∧
      (lfsc_local_seek be w handle offset whence out).2.1 = out ∧
      ((lfsc_local_seek be w handle offset whence out).2.2.inp = w.inp ∨
       (lfsc_local_seek be w handle offset whence out).2.2.inp = rest) ∧
      (w.accepting →
        (lfsc_local_seek be w handle offset whence out).1 = LFSC_SERR_OPERATION_FAILED ∧
        (lfsc_local_seek be w handle offset whence out).2.2.inp = rest)) ∧
    (∀ SZ stream,
      (lfsc_get_length be SZ w stream).1 = 0 ∧
      ((lfsc_get_length be SZ w stream).2.inp = w.inp ∨
       (lfsc_get_length be SZ w stream).2.inp = rest) ∧
      (w.accepting → (lfsc_get_length be SZ w stream).2.inp = rest)) := by
  have hcs : ∀ (v : World), v.inp = w.inp →
      lfsc_check_status be v = (LFSC_SERR_OPERATION_FAILED, v.after 2 rest v.out) := by
    intro v hv
    rw [lfsc_check_status_word be _ m s rest (by rw [hv]; exact hin) hm hs hmag]
    simp [hst]
  have hacc : ∀ (k : Nat) (o : List Nat) (v : World), v.inp = w.inp →
      lfsc_check_status be (v.after k w.inp o)
        = (LFSC_SERR_OPERATION_FAILED, v.after (k + 2) rest o) := by
    intro k o v _
    rw [hcs _ (by simp)]
    simp
  have hne : LFSC_SERR_OPERATION_FAILED ≠ LFSC_SOK := by decide
  refine ⟨?_, ?_, ?_, ?_⟩
  · intro ctx out_file name calloc_ok
    refine ⟨?_, ?_, ?_, ?_⟩
    · simp only [lfsc_ctx_fopen]
      rw [hcs _ (by simp)]
      simp only [hne, if_true, ne_eq, not_false_eq_true]
      split_ifs <;> simp
    · simp only [lfsc_ctx_fopen]
      rw [hcs _ (by simp)]
      simp only [hne, if_true, ne_eq, not_false_eq_true]
      split_ifs <;> simp
    · simp only [lfsc_ctx_fopen]
      rw [hcs _ (by simp)]
      simp only [hne, if_true, ne_eq, not_false_eq_true]
      split_ifs <;> simp
    · intro hw
      simp [lfsc_ctx_fopen, lfsc_write_int_accepting, lfsc_write_string_accepting, hw, hacc]
  · intro stream size
    refine ⟨?_, ?_, ?_, ?_⟩
    · simp only [lfsc_read]
      rw [hcs _ (by simp)]
      simp only [hne, if_true, ne_eq, not_false_eq_true]
      split_ifs <;> simp
    · simp only [lfsc_read]
      rw [hcs _ (by simp)]
      simp only [hne, if_true, ne_eq, not_false_eq_true]
      split_ifs <;> simp
    · simp only [lfsc_read]
      rw [hcs _ (by simp)]
      simp only [hne, if_true, ne_eq, not_false_eq_true]
      split_ifs <;> simp
    · intro hw
      simp [lfsc_read, lfsc_write_command_accepting, lfsc_write_int_accepting, hw, hacc]
  · intro handle offset whence out
    refine ⟨?_, ?_, ?_, ?_⟩
    · simp only [lfsc_local_seek]
      rw [hcs _ (by simp)]
      simp only [hne, if_true, ne_eq, not_false_eq_true]
      split_ifs <;> simp
    · simp only [lfsc_local_seek]
      rw [hcs _ (by simp)]
      simp only [hne, if_true, ne_eq, not_false_eq_true]
      split_ifs <;> simp
    · simp only [lfsc_local_seek]
      rw [hcs _ (by simp)]
      simp only [hne, if_true, ne_eq, not_false_eq_true]
      split_ifs <;> simp
    · intro hw
      simp [lfsc_local_seek, lfsc_write_command_accepting, lfsc_write_int_accepting, hw, hacc]
  · intro SZ stream
    refine ⟨?_, ?_, ?_⟩
    · simp only [lfsc_get_length]
      rw [hcs _ (by simp)]
      simp only [hne, if_true, ne_eq, not_false_eq_true]
      split_ifs <;> simp
    · simp only [lfsc_get_length]
      rw [hcs _ (by simp)]
      simp only [hne, if_true, ne_eq, not_false_eq_true]
      split_ifs <;> simp
    · intro hw
      simp [lfsc_get_length, lfsc_write_command_accepting, hw, hacc]

/-- Witness of C5: status word 1 followed by three payload bytes. -/
theorem status_gating_witness :
    (lfsc_read false ⟨[0x55, 0xaa, 0x55, 0xaa, 1, 0, 0, 0, 3, 0, 0, 0], [], none, 0, 0⟩
      ⟨0, 5⟩ 10).1 = 0 ∧
    (lfsc_read false ⟨[0x55, 0xaa, 0x55, 0xaa, 1, 0, 0, 0, 3, 0, 0, 0], [], none, 0, 0⟩
      ⟨0, 5⟩ 10).2.2.inp = [3, 0, 0, 0] :=
  have h := (status_gating false ⟨[0x55, 0xaa, 0x55, 0xaa, 1, 0, 0, 0, 3, 0, 0, 0], [], none, 0, 0⟩
    [0x55, 0xaa, 0x55, 0xaa] [1, 0, 0, 0] [3, 0, 0, 0] rfl rfl rfl (by decide) (by decide)).2.1
    ⟨0, 5⟩ 10
  ⟨h.1, h.2.2.2 (by decide)⟩


/-! ## Open request -/

theorem toMem_length (be : Bool) (n v : Nat) : (toMem be n v).length = n := by
  cases be <;> simp [toMem, leBytes_length]

theorem wcharMem_length (be : Bool) (name : List Nat) :
    (wcharMem be name).length = 2 * name.length := by
  induction name with
  | nil => rfl
  | cons u t ih =>
    have : wcharMem be (u :: t) = toMem be 2 u ++ wcharMem be t := by
      simp [wcharMem]
    rw [this, List.length_append, ih, toMem_length, List.length_cons]
    omega

@[simp] theorem release_out (w : World) : (ReleaseMutex w).out = w.out := rfl

@[simp] theorem ReadFile_out (w : World) (n : Nat) : (ReadFile w n).2.2.out = w.out := rfl

@[simp] theorem lfsc_read_int_out (be : Bool) (w : World) (n : Nat) :
    (lfsc_read_int be w n).2.2.out = w.out := rfl

@[simp] theorem lfsc_check_status_out (be : Bool) (w : World) :
    (lfsc_check_status be w).2.out = w.out := by
  simp only [lfsc_check_status]
  split_ifs <;> simp

theorem lfsc_ctx_fopen_out (be : Bool) (ctx : Nat) (w : World) (out_file : Option lfsc_file)
    (name : List Nat) (calloc_ok : Bool) (hw : w.accepting) :
    (lfsc_ctx_fopen be ctx w out_file name calloc_ok).2.2.out
      = w.out ++ (leBytes 4 lfsc_magic ++ leBytes 4 1
          ++ leBytes 4 ((wcslen name * 2) % 2 ^ 32)
          ++ (wcharMem be name).take ((wcslen name * 2) % 2 ^ 32)) := by
  simp only [lfsc_ctx_fopen, lfsc_write_int_accepting, lfsc_write_string_accepting, hw,
    wait_accepting, after_accepting, Bool.not_true, Bool.false_eq_true, if_false, after_out,
    after_inp, after_after, wait_out, wait_inp, lfsc_cmd.code]
  split_ifs <;> simp [List.append_assoc]

/-- C6, counterexample: for the name "a" the request of `lfsc_ctx_fopen` is the
14 bytes magic, opcode 1, length 2, 'a'; it has no 8-byte handle id field
between the opcode and the payload. -/
theorem lfsc_ctx_fopen_no_handle_field :
    (lfsc_ctx_fopen false 0 ⟨[], [], none, 0, 0⟩ none [0x61] true).2.2.out
      = [0x55, 0xaa, 0x55, 0xaa, 1, 0, 0, 0, 2, 0, 0, 0, 0x61, 0] ∧
    ¬ ∃ hid : List Nat, hid.length = 8 ∧
      (lfsc_ctx_fopen false 0 ⟨[], [], none, 0, 0⟩ none [0x61] true).2.2.out
        = [0x55, 0xaa, 0x55, 0xaa] ++ [1, 0, 0, 0] ++ hid ++ [2, 0, 0, 0] ++ [0x61, 0] := by
  have h : (lfsc_ctx_fopen false 0 ⟨[], [], none, 0, 0⟩ none [0x61] true).2.2.out
      = [0x55, 0xaa, 0x55, 0xaa, 1, 0, 0, 0, 2, 0, 0, 0, 0x61, 0] := by decide
  refine ⟨h, ?_⟩
  rintro ⟨hid, hlen, he⟩
  rw [h] at he
  have := congrArg List.length he
  simp [hlen] at this

/-- C6, amended: for a name of fewer than 2^31 code units, the request that
`lfsc_ctx_fopen` writes to a transport that accepts everything is the magic
(4 bytes), the opcode open = 1 (4 bytes) and then at once the payload: the
byte length of the name (twice its number of code units) in 4 little-endian
bytes and the raw bytes of the name. No handle id is written. -/
theorem lfsc_ctx_fopen_request (be : Bool) (ctx : Nat) (w : World)
    (out_file : Option lfsc_file) (name : List Nat) (calloc_ok : Bool)
    (hw : w.accepting) (hn : name.length < 2 ^ 31) :
    (lfsc_ctx_fopen be ctx w out_file name calloc_ok).2.2.out
      = w.out ++ ([0x55, 0xaa, 0x55, 0xaa] ++ [1, 0, 0, 0]
          ++ leBytes 4 (2 * name.length) ++ wcharMem be name) ∧
    (wcharMem be name).length = 2 * name.length := by
  refine ⟨?_, wcharMem_length be name⟩
  rw [lfsc_ctx_fopen_out be ctx w out_file name calloc_ok hw]
  have hb : (wcslen name * 2) % 2 ^ 32 = 2 * name.length := by
    simp only [wcslen]
    rw [Nat.mod_eq_of_lt (by omega)]
    omega
  have hm : leBytes 4 lfsc_magic = [0x55, 0xaa, 0x55, 0xaa] := by decide
  have ho : leBytes 4 1 = [1, 0, 0, 0] := by decide
  rw [hb, hm, ho, List.take_of_length_le (by rw [wcharMem_length])]

/-- Witness of C6 (amended): the name "ab" on a big-endian host. -/
theorem lfsc_ctx_fopen_request_witness :
    (lfsc_ctx_fopen true 0 ⟨[], [9], none, 0, 0⟩ none [0x61, 0x62] true).2.2.out
      = [9] ++ ([0x55, 0xaa, 0x55, 0xaa] ++ [1, 0, 0, 0]
          ++ leBytes 4 (2 * [0x61, 0x62].length) ++ wcharMem true [0x61, 0x62]) ∧
    (wcharMem true [0x61, 0x62]).length = 2 * [0x61, 0x62].length :=
  lfsc_ctx_fopen_request true 0 ⟨[], [9], none, 0, 0⟩ none [0x61, 0x62] true
    (by decide) (by decide)

/-! ## Capability flags: failure codes -/

/-- C7, the code at failing inputs: when the first response of `lfsc_get_flags`
has a mismatched magic, a non-zero status word or a short header, the function
returns `LFSC_SOK` (the value 0 that `LFSC_TRY(s == LFSC_SOK, 0)` assigns to
`ret`), not `LFSC_SERR_BAD_MAGIC`, `LFSC_SERR_OPERATION_FAILED` or
`LFSC_SERR_READ_PIPE`; `lfsc_check_status` itself reports the specific code. -/
theorem lfsc_get_flags_masks_failure :
    (lfsc_check_status false
      (lfsc_write_command false ⟨[0, 0, 0, 0], [], none, 1, 0⟩ 5 LFSC_CGET_CAN_SEEK).2).1
      = LFSC_SERR_BAD_MAGIC ∧
    (lfsc_get_flags false ⟨[0, 0, 0, 0], [], none, 0, 0⟩ ⟨0, 5⟩ 0).1 = LFSC_SOK ∧
    (lfsc_get_flags false ⟨[0x55, 0xaa, 0x55, 0xaa, 1, 0, 0, 0], [], none, 0, 0⟩ ⟨0, 5⟩ 0).1
      = LFSC_SOK ∧
    (lfsc_get_flags false ⟨[0x55, 0xaa], [], none, 0, 0⟩ ⟨0, 5⟩ 0).1 = LFSC_SOK ∧
    (lfsc_get_flags false
      ⟨[0x55, 0xaa, 0x55, 0xaa, 0, 0, 0, 0, 1, 0xff, 0xff, 0xff, 0xff], [], none, 0, 0⟩
      ⟨0, 5⟩ 0).1 = LFSC_SOK := by
  decide

/-! ## Element reads -/

/-- C8, the code at a failing input: 3 elements of size 2 are requested and the
peer delivers all 6 bytes; `lfsc_read` returns 6 and `lfsc_fread` returns
6 / 3 = 2 (`read / nmemb`), not the element count 6 / 2 = 3. -/
theorem lfsc_fread_divides_by_nmemb :
    (lfsc_read false
      ⟨[0x55, 0xaa, 0x55, 0xaa, 0, 0, 0, 0, 6, 0, 0, 0, 97, 98, 99, 100, 101, 102],
        [], none, 0, 0⟩ ⟨0, 5⟩ (2 * 3)).1 = 6 ∧
    (lfsc_fread false 64
      ⟨[0x55, 0xaa, 0x55, 0xaa, 0, 0, 0, 0, 6, 0, 0, 0, 97, 98, 99, 100, 101, 102],
        [], none, 0, 0⟩ ⟨0, 5⟩ 2 3).1 = 2 ∧
    (lfsc_fread false 64
      ⟨[0x55, 0xaa, 0x55, 0xaa, 0, 0, 0, 0, 6, 0, 0, 0, 97, 98, 99, 100, 101, 102],
        [], none, 0, 0⟩ ⟨0, 5⟩ 2 3).1 ≠ 6 / 2 := by
  decide

/-- C9, the code at a failing input: 2 elements of size 4 are requested and the
peer delivers 5 bytes. After the read request (20 bytes) `lfsc_fread` issues one
seek command with whence 1 whose offset field is -4 (`-(read - read % nmemb)`),
not -(5 % 4) = -1. -/
theorem lfsc_fread_rewinds_by_nmemb_multiple :
    (lfsc_read false
      ⟨[0x55, 0xaa, 0x55, 0xaa, 0, 0, 0, 0, 5, 0, 0, 0, 97, 98, 99, 100, 101,
        0x55, 0xaa, 0x55, 0xaa, 0, 0, 0, 0, 1, 0, 0, 0, 0, 0, 0, 0],
        [], none, 0, 0⟩ ⟨0, 5⟩ (4 * 2)).1 = 5 ∧
    (lfsc_fread false 64
      ⟨[0x55, 0xaa, 0x55, 0xaa, 0, 0, 0, 0, 5, 0, 0, 0, 97, 98, 99, 100, 101,
        0x55, 0xaa, 0x55, 0xaa, 0, 0, 0, 0, 1, 0, 0, 0, 0, 0, 0, 0],
        [], none, 0, 0⟩ ⟨0, 5⟩ 4 2).2.2.out.drop 20
      = [0x55, 0xaa, 0x55, 0xaa] ++ [5, 0, 0, 0] ++ leBytes 8 5
          ++ leBytes 8 (toPattern 64 (-4)) ++ leBytes 4 1 ∧
    leBytes 8 (toPattern 64 (-4)) ≠ leBytes 8 (toPattern 64 (-((5 % 4 : Nat) : Int))) := by
  decide


/-! ## Seek -/

theorem lfsc_write_int_room (be : Bool) (w : World) (v : List Nat) (n r : Nat)
    (h : w.room = some r) :
    (lfsc_write_int be w v n).1 = decide (n ≤ r) ∧
    (lfsc_write_int be w v n).2.room = some (r - min n r) := by
  obtain ⟨inp, out, room, mutex, bare⟩ := w
  simp only at h
  subst h
  simp only [lfsc_write_int, WriteFile, World.touch, Option.map_some', and_true]
  rw [Bool.eq_iff_iff]
  simp only [Bool.and_eq_true, decide_eq_true_eq]
  omega

theorem lfsc_write_int_ok_room (be : Bool) (w : World) (v : List Nat) (n r : Nat)
    (h : w.room = some r) (hok : (lfsc_write_int be w v n).1 = true) :
    n ≤ r ∧ (lfsc_write_int be w v n).2.room = some (r - n) := by
  have := lfsc_write_int_room be w v n r h
  rw [this.1] at hok
  have hle : n ≤ r := by simpa using hok
  exact ⟨hle, by rw [this.2, Nat.min_eq_left hle]⟩

theorem lfsc_write_command_ok_room (be : Bool) (w : World) (handle : Nat) (cmd : lfsc_cmd)
    (r : Nat) (h : w.room = some r) (hok : (lfsc_write_command be w handle cmd).1 = true) :
    16 ≤ r ∧ (lfsc_write_command be w handle cmd).2.room = some (r - 16) := by
  simp only [lfsc_write_command] at hok ⊢
  split_ifs at hok ⊢ with h1 h2 h3
  simp only [Bool.not_eq_true', Bool.not_eq_false] at h1 h2 h3
  obtain ⟨a1, a2⟩ := lfsc_write_int_ok_room be w _ 4 r h h1
  obtain ⟨b1, b2⟩ := lfsc_write_int_ok_room be _ _ 4 (r - 4) a2 h2
  obtain ⟨c1, c2⟩ := lfsc_write_int_ok_room be _ _ 8 (r - 4 - 4) b2 h3
  refine ⟨by omega, ?_⟩
  simp only [c2, Option.some.injEq]
  omega

@[simp] theorem lfsc_check_status_fst_inp (be : Bool) (v w : World) (h : v.inp = w.inp) :
    (lfsc_check_status be v).1 = (lfsc_check_status be w).1 := by
  rw [lfsc_check_status_eval, lfsc_check_status_eval, h]
  split_ifs <;> rfl

theorem lfsc_check_status_ok_inp (be : Bool) (w : World)
    (h : (lfsc_check_status be w).1 = LFSC_SOK) :
    8 ≤ w.inp.length ∧ leVal (w.inp.take 4) = lfsc_magic ∧
    leVal ((w.inp.drop 4).take 4) = 0 ∧ (lfsc_check_status be w).2.inp = w.inp.drop 8 := by
  rw [lfsc_check_status_eval] at h ⊢
  split_ifs at h ⊢ with h1 h2 h3 h4
  simp only [ne_eq, Decidable.not_not] at h2 h4
  exact ⟨by omega, h2, h4, rfl⟩

/-- The conditions under which `lfsc_local_seek` can return `LFSC_SOK`. -/
theorem lfsc_local_seek_ok (be : Bool) (w : World) (handle offset whence out : Nat)
    (h : (lfsc_local_seek be w handle offset whence out).1 = LFSC_SOK) :
    (∀ r, w.room = some r → 28 ≤ r) ∧ 16 ≤ w.inp.length ∧
    leVal (w.inp.take 4) = lfsc_magic ∧ leVal ((w.inp.drop 4).take 4) = 0 := by
  simp only [lfsc_local_seek] at h
  split_ifs at h with h1 h2 h3 h4 h5
  · exact absurd h h4
  · simp only [Bool.not_eq_true', Bool.not_eq_false, ne_eq, Decidable.not_not] at h1 h2 h3 h4 h5
    have hi : (lfsc_write_int be (lfsc_write_int be
        (lfsc_write_command be w handle LFSC_CSEEK).2 (toMem be 8 offset) 8).2
        (toMem be 4 whence) 4).2.inp = w.inp := by simp
    obtain ⟨c1, c2, c3, c4⟩ := lfsc_check_status_ok_inp be _ h4
    rw [hi] at c1 c2 c3 c4
    refine ⟨?_, ?_, c2, c3⟩
    · intro r hr
      obtain ⟨a1, a2⟩ := lfsc_write_command_ok_room be w handle LFSC_CSEEK r hr h1
      obtain ⟨b1, b2⟩ := lfsc_write_int_ok_room be _ _ 8 (r - 16) a2 h2
      obtain ⟨d1, d2⟩ := lfsc_write_int_ok_room be _ _ 4 (r - 16 - 8) b2 h3
      omega
    · rw [lfsc_read_int_eval be _ 8 (by decide)] at h5
      simp only [c4, List.length_drop, decide_eq_true_eq] at h5
      omega


theorem lfsc_fseek_fail (be : Bool) (w : World) (stream : lfsc_file) (offset whence : Int)
    (h : (lfsc_local_seek be (WaitForSingleObject w) stream.handle (toPattern 64 offset)
      (toPattern 32 whence) 0).1 ≠ LFSC_SOK) :
    (lfsc_fseek be w stream offset whence).1 = -1 := by
  simp only [lfsc_fseek, h, if_true, ne_eq, not_false_eq_true]
  decide

theorem lfsc_local_seek_out (be : Bool) (w : World) (handle offset whence out : Nat)
    (hw : w.accepting) :
    (lfsc_local_seek be w handle offset whence out).2.2.out
      = w.out ++ (leBytes 4 lfsc_magic ++ leBytes 4 5 ++ leBytes 8 handle
          ++ leBytes 8 offset ++ leBytes 4 whence) := by
  simp only [lfsc_local_seek, lfsc_write_command_accepting, lfsc_write_int_accepting, hw,
    after_accepting, Bool.not_true, Bool.false_eq_true, if_false, after_out,
    after_inp, after_after, lfsc_cmd.code]
  split_ifs <;> simp [List.append_assoc]

theorem lfsc_local_seek_success (be : Bool) (w : World) (handle offset whence out : Nat)
    (m s rest : List Nat) (pos : Nat) (hw : w.accepting)
    (hin : w.inp = m ++ s ++ leBytes 8 pos ++ rest) (hm : m.length = 4) (hs : s.length = 4)
    (hmag : leVal m = lfsc_magic) (hst : leVal s = 0) (hp : pos < 2 ^ 64) :
    (lfsc_local_seek be w handle offset whence out).1 = LFSC_SOK ∧
    (lfsc_local_seek be w handle offset whence out).2.1 = pos ∧
    (lfsc_local_seek be w handle offset whence out).2.2.inp = rest := by
  have hcs : ∀ (k : Nat) (o : List Nat),
      lfsc_check_status be (w.after k w.inp o)
        = (LFSC_SOK, w.after (k + 2) (leBytes 8 pos ++ rest) o) := by
    intro k o
    rw [lfsc_check_status_word be _ m s (leBytes 8 pos ++ rest)
      (by simp [hin, List.append_assoc]) hm hs hmag]
    simp [hst]
  have hrd : ∀ (k : Nat) (o : List Nat),
      lfsc_read_int be (w.after k (leBytes 8 pos ++ rest) o) 8
        = (true, lfsc_flip_int_copy be (leBytes 8 pos) 8, w.after (k + 1) rest o) := by
    intro k o
    rw [lfsc_read_int_full be _ (leBytes 8 pos) rest 8 (leBytes_length 8 pos) (by simp)]
    simp
  have hv : ofMem be (lfsc_flip_int_copy be (leBytes 8 pos) 8) = pos := by
    rw [ofMem_flip be _ 8 (leBytes_length 8 pos), leVal_leBytes]
    exact Nat.mod_eq_of_lt (by simpa using hp)
  simp [lfsc_local_seek, lfsc_write_command_accepting, lfsc_write_int_accepting, hw, hcs, hrd,
    hv]

theorem toSigned_trunc (pos : Nat) (hp : pos < 2 ^ 64)
    (h1 : -(2 ^ 31) ≤ toSigned 64 pos) (h2 : toSigned 64 pos < 2 ^ 31) :
    toSigned 32 (pos % 2 ^ 32) = toSigned 64 pos := by
  simp only [toSigned] at *
  norm_num at *
  split_ifs at * <;> omega

/-- C10, counterexample: the peer answers a seek with success and the position
2^31; `lfsc_fseek` returns -2^31 (the `int64_t` converted to the `int` return
type), not the position decoded from the payload. -/
theorem lfsc_fseek_truncates_position :
    toSigned 64 (leVal [0, 0, 0, 0x80, 0, 0, 0, 0]) = 2147483648 ∧
    (lfsc_fseek false
      ⟨[0x55, 0xaa, 0x55, 0xaa, 0, 0, 0, 0, 0, 0, 0, 0x80, 0, 0, 0, 0], [], none, 0, 0⟩
      ⟨0, 5⟩ 0 0).1 = -2147483648 ∧
    (lfsc_fseek false
      ⟨[0x55, 0xaa, 0x55, 0xaa, 0, 0, 0, 0, 0, 0, 0, 0x80, 0, 0, 0, 0], [], none, 0, 0⟩
      ⟨0, 5⟩ 0 0).1 ≠ toSigned 64 (leVal [0, 0, 0, 0x80, 0, 0, 0, 0]) := by
  decide

/-- C10, amended: `lfsc_fseek` writes the command header with opcode 5, the
offset in 8 and the whence in 4 little-endian bytes; it returns -1 when a write
is short (the transport accepts fewer than the 28 request bytes), when a read is
short (fewer than 16 response bytes), when the magic is mismatched and when the
status word is non-zero; on success it returns the low 32 bits of the position
in the 8-byte payload read as a signed `int`, which is the position itself
whenever the position lies between -2^31 and 2^31 - 1. -/
theorem lfsc_fseek_spec (be : Bool) (w : World) (stream : lfsc_file) (offset whence : Int) :
    (w.accepting →
      (lfsc_fseek be w stream offset whence).2.out
        = w.out ++ ([0x55, 0xaa, 0x55, 0xaa] ++ [5, 0, 0, 0] ++ leBytes 8 stream.handle
            ++ leBytes 8 (toPattern 64 offset) ++ leBytes 4 (toPattern 32 whence))) ∧
    (∀ r, w.room = some r → r < 28 → (lfsc_fseek be w stream offset whence).1 = -1) ∧
    (w.inp.length < 16 → (lfsc_fseek be w stream offset whence).1 = -1) ∧
    (leVal (w.inp.take 4) ≠ 0xaa55aa55 → (lfsc_fseek be w stream offset whence).1 = -1) ∧
    (leVal ((w.inp.drop 4).take 4) ≠ 0 → (lfsc_fseek be w stream offset whence).1 = -1) ∧
    (∀ m s rest pos, w.accepting → w.inp = m ++ s ++ leBytes 8 pos ++ rest →
      m.length = 4 → s.length = 4 → leVal m = 0xaa55aa55 → leVal s = 0 → pos < 2 ^ 64 →
      (lfsc_fseek be w stream offset whence).1 = toSigned 32 (pos % 2 ^ 32) ∧
      (lfsc_fseek be w stream offset whence).2.inp = rest ∧
      (-(2 ^ 31) ≤ toSigned 64 pos → toSigned 64 pos < 2 ^ 31 →
        (lfsc_fseek be w stream offset whence).1 = toSigned 64 pos)) := by
  have hfail : ∀ P : Prop, ¬ P →
      ((lfsc_local_seek be (WaitForSingleObject w) stream.handle (toPattern 64 offset)
        (toPattern 32 whence) 0).1 = LFSC_SOK → P) →
      (lfsc_fseek be w stream offset whence).1 = -1 := by
    intro P hnp himp
    exact lfsc_fseek_fail be w stream offset whence (fun hok => hnp (himp hok))
  refine ⟨?_, ?_, ?_, ?_, ?_, ?_⟩
  · intro hw
    have hm : leBytes 4 lfsc_magic = [0x55, 0xaa, 0x55, 0xaa] := by decide
    have ho : leBytes 4 5 = [5, 0, 0, 0] := by decide
    simp only [lfsc_fseek, release_out]
    rw [lfsc_local_seek_out be _ _ _ _ _ (by simpa using hw), hm, ho]
    rfl
  · intro r hr hlt
    exact hfail (28 ≤ r) (by omega) (fun hok => (lfsc_local_seek_ok be _ _ _ _ _ hok).1 r hr)
  · intro hlt
    exact hfail (16 ≤ w.inp.length) (by omega)
      (fun hok => (lfsc_local_seek_ok be _ _ _ _ _ hok).2.1)
  · intro hne
    exact hfail _ hne (fun hok => (lfsc_local_seek_ok be _ _ _ _ _ hok).2.2.1)
  · intro hne
    exact hfail _ hne (fun hok => (lfsc_local_seek_ok be _ _ _ _ _ hok).2.2.2)
  · intro m s rest pos hw hin hm hs hmag hst hp
    obtain ⟨h1, h2, h3⟩ := lfsc_local_seek_success be (WaitForSingleObject w) stream.handle
      (toPattern 64 offset) (toPattern 32 whence) 0 m s rest pos (by simpa using hw)
      (by simpa using hin) hm hs hmag hst hp
    have hres : (lfsc_fseek be w stream offset whence).1 = toSigned 32 (pos % 2 ^ 32) := by
      simp only [lfsc_fseek, h1, h2, ne_eq, not_true_eq_false, if_false]
    refine ⟨hres, ?_, ?_⟩
    · simp only [lfsc_fseek, release_inp, h3]
    · intro a b
      rw [hres]
      exact toSigned_trunc pos hp a b

/-- Witness of C10 (amended): a seek answered with the position 0x1234. -/
theorem lfsc_fseek_spec_witness :
    (lfsc_fseek true
      ⟨[0x55, 0xaa, 0x55, 0xaa, 0, 0, 0, 0] ++ leBytes 8 0x1234 ++ [7], [], none, 0, 0⟩
      ⟨0, 5⟩ (-4) 1).1 = toSigned 32 (0x1234 % 2 ^ 32) ∧
    (lfsc_fseek true
      ⟨[0x55, 0xaa, 0x55, 0xaa, 0, 0, 0, 0] ++ leBytes 8 0x1234 ++ [7], [], none, 0, 0⟩
      ⟨0, 5⟩ (-4) 1).2.inp = [7] ∧
    (lfsc_fseek true
      ⟨[0x55, 0xaa, 0x55, 0xaa, 0, 0, 0, 0] ++ leBytes 8 0x1234 ++ [7], [], none, 0, 0⟩
      ⟨0, 5⟩ (-4) 1).1 = toSigned 64 0x1234 :=
  have h := (lfsc_fseek_spec true
    ⟨[0x55, 0xaa, 0x55, 0xaa, 0, 0, 0, 0] ++ leBytes 8 0x1234 ++ [7], [], none, 0, 0⟩
    ⟨0, 5⟩ (-4) 1).2.2.2.2.2 [0x55, 0xaa, 0x55, 0xaa] [0, 0, 0, 0] [7] 0x1234
    (by decide) rfl rfl rfl (by decide) (by decide) (by decide)
  ⟨h.1, h.2.1, h.2.2 (by decide) (by decide)⟩


/-! ## Read -/

theorem lfsc_read_success (be : Bool) (w : World) (stream : lfsc_file) (size n : Nat)
    (m s data rest : List Nat) (hw : w.accepting)
    (hin : w.inp = m ++ s ++ leBytes 4 n ++ data ++ rest) (hm : m.length = 4)
    (hs : s.length = 4) (hmag : leVal m = lfsc_magic) (hst : leVal s = 0)
    (hn : n < 2 ^ 32) (hd : data.length = n) :
    lfsc_read be w stream size
      = (n, data, w.after 0 rest (w.out ++ (leBytes 4 lfsc_magic ++ leBytes 4 3
          ++ leBytes 8 stream.handle ++ leBytes 4 (size % 2 ^ 32)))) := by
  have hcs : ∀ (k : Nat) (o : List Nat),
      lfsc_check_status be ((WaitForSingleObject w).after k w.inp o)
        = (LFSC_SOK, (WaitForSingleObject w).after (k + 2) (leBytes 4 n ++ (data ++ rest)) o) := by
    intro k o
    rw [lfsc_check_status_word be _ m s (leBytes 4 n ++ (data ++ rest))
      (by simp [hin, List.append_assoc]) hm hs hmag]
    simp [hst]
  have hrd : ∀ (k : Nat) (o : List Nat),
      lfsc_read_int be ((WaitForSingleObject w).after k (leBytes 4 n ++ (data ++ rest)) o) 4
        = (true, lfsc_flip_int_copy be (leBytes 4 n) 4,
            (WaitForSingleObject w).after (k + 1) (data ++ rest) o) := by
    intro k o
    rw [lfsc_read_int_full be _ (leBytes 4 n) (data ++ rest) 4 (leBytes_length 4 n) (by simp)]
    simp
  have hv : ofMem be (lfsc_flip_int_copy be (leBytes 4 n) 4) = n := by
    rw [ofMem_flip be _ 4 (leBytes_length 4 n), leVal_leBytes]
    exact Nat.mod_eq_of_lt (by simpa using hn)
  have hdat : ∀ (k : Nat) (o : List Nat),
      ReadFile ((WaitForSingleObject w).after k (data ++ rest) o) n
        = (true, data, (WaitForSingleObject w).after (k + 1) rest o) := by
    intro k o
    subst hd
    rw [ReadFile_full _ data rest (by simp)]
    simp
  have hw0 : (WaitForSingleObject w).accepting := by simpa using hw
  simp only [lfsc_read, lfsc_write_command_accepting _ _ _ _ hw0, wait_inp, wait_out,
    lfsc_write_int_accepting, after_accepting, hw0, after_inp, after_out, after_after, hcs, hrd,
    hv, hdat, Bool.not_true, Bool.false_eq_true, if_false, ne_eq, not_true_eq_false,
    lfsc_cmd.code, release_wait_after, List.append_assoc]
  by_cases h0 : n = 0
  · subst h0
    have : data = [] := List.eq_nil_of_length_eq_zero hd
    subst this
    simp
  · have : n > 0 := by omega
    simp [this, hd]


/-- C11: on a transport that accepts the request, a response with the correct
magic, status 0, the actual size `n` and then `n` data bytes makes `lfsc_read`
return `n` and store exactly those `n` bytes, in order, at the start of the
caller's buffer; it consumes the response and nothing after it. In particular
for `n = 0` nothing is stored, the result is 0 and every byte after the size
field is left on the transport. -/
theorem lfsc_read_delivers (be : Bool) (w : World) (stream : lfsc_file) (size n : Nat)
    (m s data rest : List Nat) (hw : w.accepting)
    (hin : w.inp = m ++ s ++ leBytes 4 n ++ data ++ rest) (hm : m.length = 4)
    (hs : s.length = 4) (hmag : leVal m = 0xaa55aa55) (hst : leVal s = 0)
    (hn : n < 2 ^ 32) (hd : data.length = n) :
    (lfsc_read be w stream size).1 = n ∧
    (lfsc_read be w stream size).2.1 = data ∧
    (lfsc_read be w stream size).2.2.inp = rest ∧
    (n = 0 → (lfsc_read be w stream size).1 = 0 ∧ (lfsc_read be w stream size).2.1 = [] ∧
      w.inp = m ++ s ++ leBytes 4 0 ++ (lfsc_read be w stream size).2.2.inp) := by
  have h := lfsc_read_success be w stream size n m s data rest hw hin hm hs hmag hst hn hd
  rw [h]
  refine ⟨rfl, rfl, rfl, ?_⟩
  intro h0
  subst h0
  have hnil : data = [] := List.eq_nil_of_length_eq_zero hd
  subst hnil
  refine ⟨rfl, rfl, ?_⟩
  simpa using hin

/-- Witness of C11: 10 bytes are requested and the peer returns the 6 bytes
'a' to 'f'; the result is 6. -/
theorem lfsc_read_delivers_witness :
    (lfsc_read false
      ⟨[0x55, 0xaa, 0x55, 0xaa] ++ [0, 0, 0, 0] ++ leBytes 4 6
        ++ [97, 98, 99, 100, 101, 102] ++ [], [], none, 0, 0⟩ ⟨0, 5⟩ 10).1 = 6 ∧
    (lfsc_read false
      ⟨[0x55, 0xaa, 0x55, 0xaa] ++ [0, 0, 0, 0] ++ leBytes 4 6
        ++ [97, 98, 99, 100, 101, 102] ++ [], [], none, 0, 0⟩ ⟨0, 5⟩ 10).2.1
      = [97, 98, 99, 100, 101, 102] :=
  have h := lfsc_read_delivers false
    ⟨[0x55, 0xaa, 0x55, 0xaa] ++ [0, 0, 0, 0] ++ leBytes 4 6
      ++ [97, 98, 99, 100, 101, 102] ++ [], [], none, 0, 0⟩ ⟨0, 5⟩ 10 6
    [0x55, 0xaa, 0x55, 0xaa] [0, 0, 0, 0] [97, 98, 99, 100, 101, 102] []
    (by decide) rfl rfl rfl (by decide) (by decide) (by decide) rfl
  ⟨h.1, h.2.1⟩

/-- C20, the code at a failing input: 2 bytes are requested and the peer answers
with the size 6 and 6 data bytes; `lfsc_read` passes the peer's size to
`ReadFile`, stores 6 bytes at the caller's buffer and returns 6. -/
theorem lfsc_read_exceeds_request :
    (lfsc_read false
      ⟨[0x55, 0xaa, 0x55, 0xaa, 0, 0, 0, 0, 6, 0, 0, 0, 97, 98, 99, 100, 101, 102],
        [], none, 0, 0⟩ ⟨0, 5⟩ 2).1 = 6 ∧
    (lfsc_read false
      ⟨[0x55, 0xaa, 0x55, 0xaa, 0, 0, 0, 0, 6, 0, 0, 0, 97, 98, 99, 100, 101, 102],
        [], none, 0, 0⟩ ⟨0, 5⟩ 2).2.1 = [97, 98, 99, 100, 101, 102] ∧
    ¬ ((lfsc_read false
      ⟨[0x55, 0xaa, 0x55, 0xaa, 0, 0, 0, 0, 6, 0, 0, 0, 97, 98, 99, 100, 101, 102],
        [], none, 0, 0⟩ ⟨0, 5⟩ 2).2.1.length ≤ 2) ∧
    (lfsc_read false
      ⟨[0x55, 0xaa, 0x55, 0xaa, 0, 0, 0, 0, 6, 0, 0, 0, 97, 98, 99, 100, 101, 102],
        [], none, 0, 0⟩ ⟨0, 5⟩ 2).2.2.out.drop 16 = [2, 0, 0, 0] := by
  decide


/-! ## Length-prefixed bytes -/

theorem lfsc_write_int_out_room (be : Bool) (w : World) (n v r : Nat) (h : w.room = some r) :
    (lfsc_write_int be w (toMem be n v) n).2.out = w.out ++ (leBytes n v).take (min n r) := by
  simp only [lfsc_write_int, flip_toMem, WriteFile, h]

/-- C19: for a byte string of `n < 2^31` bytes, `lfsc_write_string` on a
transport that accepts everything returns true and appends exactly `4 + n`
bytes, `n` in 4 little-endian bytes followed by the `n` raw bytes and nothing
else; when the transport takes fewer than the 4 length bytes it returns false
and only those length bytes it took are appended, none of the raw bytes. -/
theorem lfsc_write_string_spec (be : Bool) (w : World) (str : List Nat)
    (hn : str.length < 2 ^ 31) :
    (w.accepting →
      (lfsc_write_string be w str str.length).1 = true ∧
      (lfsc_write_string be w str str.length).2.out
        = w.out ++ (leBytes 4 str.length ++ str) ∧
      (leBytes 4 str.length ++ str).length = 4 + str.length ∧
      leVal (leBytes 4 str.length) = str.length) ∧
    (∀ r, w.room = some r → r < 4 →
      (lfsc_write_string be w str str.length).1 = false ∧
      (lfsc_write_string be w str str.length).2.out
        = w.out ++ (leBytes 4 str.length).take r) := by
  refine ⟨?_, ?_⟩
  · intro hw
    rw [lfsc_write_string_accepting be w str str.length hw]
    refine ⟨rfl, ?_, ?_, ?_⟩
    · simp
    · simp [leBytes_length]
    · rw [leVal_leBytes]
      exact Nat.mod_eq_of_lt (by norm_num at hn ⊢; omega)
  · intro r hr hlt
    have h1 := lfsc_write_int_room be w (toMem be 4 str.length) 4 r hr
    have h2 := lfsc_write_int_out_room be w 4 str.length r hr
    have hf : (lfsc_write_int be w (toMem be 4 str.length) 4).1 = false := by
      rw [h1.1]; simp; omega
    simp only [lfsc_write_string, hf, Bool.not_false, if_true, h2]
    refine ⟨trivial, ?_⟩
    rw [Nat.min_eq_right (by omega)]

/-- Witness of C19: the two bytes 'h', 'i'. -/
theorem lfsc_write_string_spec_witness :
    (lfsc_write_string true ⟨[], [9], none, 0, 0⟩ [104, 105] [104, 105].length).1 = true ∧
    (lfsc_write_string true ⟨[], [9], none, 0, 0⟩ [104, 105] [104, 105].length).2.out
      = [9] ++ (leBytes 4 [104, 105].length ++ [104, 105]) ∧
    (leBytes 4 [104, 105].length ++ [104, 105]).length = 4 + [104, 105].length ∧
    leVal (leBytes 4 [104, 105].length) = [104, 105].length :=
  (lfsc_write_string_spec true ⟨[], [9], none, 0, 0⟩ [104, 105] (by decide)).1 (by decide)


/-! ## Write -/

theorem lfsc_write_accepting (be : Bool) (w : World) (stream : lfsc_file) (ptr : List Nat)
    (size : Nat) (hw : w.accepting) :
    (lfsc_write be w stream ptr size).1
      = (if (lfsc_check_status be w).1 ≠ LFSC_SOK then 0 else size % 2 ^ 32) ∧
    (lfsc_write be w stream ptr size).2.out
      = w.out ++ (leBytes 4 lfsc_magic ++ leBytes 4 4 ++ leBytes 8 stream.handle
          ++ leBytes 4 (size % 2 ^ 32) ++ ptr.take (size % 2 ^ 32)) := by
  have hw0 : (WaitForSingleObject w).accepting := by simpa using hw
  have hst : ∀ (k : Nat) (o : List Nat),
      (lfsc_check_status be ((WaitForSingleObject w).after k w.inp o)).1
        = (lfsc_check_status be w).1 := by
    intro k o
    exact lfsc_check_status_fst_inp be _ w (by simp)
  simp only [lfsc_write, lfsc_write_command_accepting _ _ _ _ hw0, wait_inp, wait_out,
    lfsc_write_int_accepting, WriteFile_accepting, after_accepting, hw0, after_inp, after_out,
    after_after, Bool.not_true, Bool.false_eq_true, if_false, lfsc_cmd.code, hst]
  constructor
  · split_ifs <;> rfl
  · split_ifs <;> simp [List.append_assoc]


/-- C12, counterexample: one element of size 0 is written and the response has a
mismatched magic; `lfsc_write` returns 0, which equals `size * nmemb`, and
`lfsc_fwrite` returns `nmemb` = 1, not 0. -/
theorem lfsc_fwrite_zero_size_reports_success :
    (lfsc_check_status false ⟨[0, 0, 0, 0], [], none, 0, 0⟩).1 = LFSC_SERR_BAD_MAGIC ∧
    (lfsc_write false ⟨[0, 0, 0, 0], [], none, 0, 0⟩ ⟨0, 5⟩ [] 0).1 = 0 ∧
    (lfsc_fwrite false 64 ⟨[0, 0, 0, 0], [], none, 0, 0⟩ ⟨0, 5⟩ [] 0 1).1 = 1 ∧
    (lfsc_fwrite false 64 ⟨[0, 0, 0, 0], [], none, 0, 0⟩ ⟨0, 5⟩ [] 0 1).1 ≠ 0 := by
  decide

/-- C12, amended: for a buffer of `n = S * N < 2^32` bytes on a transport that
accepts everything, `lfsc_write` sends the command header with opcode 4, then
`n` in 4 little-endian bytes, then the `n` raw bytes; with a response of
correct magic and status 0 it returns `n` and `lfsc_fwrite` returns `N`; with a
mismatched magic or a non-zero status it returns 0, and `lfsc_fwrite` returns 0
when the element size `S` is positive. -/
theorem lfsc_write_spec (be : Bool) (SZ : Nat) (w : World) (stream : lfsc_file)
    (ptr : List Nat) (S N : Nat) (hw : w.accepting) (hlen : ptr.length = S * N)
    (hn : S * N < 2 ^ 32) (hSZ : 32 ≤ SZ) :
    (lfsc_write be w stream ptr (S * N)).2.out
      = w.out ++ ([0x55, 0xaa, 0x55, 0xaa] ++ [4, 0, 0, 0] ++ leBytes 8 stream.handle
          ++ leBytes 4 (S * N) ++ ptr) ∧
    (∀ m s rest, w.inp = m ++ s ++ rest → m.length = 4 → s.length = 4 →
      leVal m = 0xaa55aa55 → leVal s = 0 →
      (lfsc_write be w stream ptr (S * N)).1 = S * N ∧
      (lfsc_fwrite be SZ w stream ptr S N).1 = N) ∧
    (∀ m rest, w.inp = m ++ rest → m.length = 4 → leVal m ≠ 0xaa55aa55 →
      (lfsc_write be w stream ptr (S * N)).1 = 0 ∧
      (0 < S → (lfsc_fwrite be SZ w stream ptr S N).1 = 0)) ∧
    (∀ m s rest, w.inp = m ++ s ++ rest → m.length = 4 → s.length = 4 →
      leVal m = 0xaa55aa55 → leVal s ≠ 0 →
      (lfsc_write be w stream ptr (S * N)).1 = 0 ∧
      (0 < S → (lfsc_fwrite be SZ w stream ptr S N).1 = 0)) := by
  have hmod : S * N % 2 ^ 32 = S * N := Nat.mod_eq_of_lt hn
  have hpow : (2 : Nat) ^ 32 ≤ 2 ^ SZ := Nat.pow_le_pow_right (by decide) hSZ
  have htot : S * N % 2 ^ SZ = S * N := Nat.mod_eq_of_lt (by omega)
  obtain ⟨hret, hout⟩ := lfsc_write_accepting be w stream ptr (S * N) hw
  have hfail : (lfsc_write be w stream ptr (S * N)).1 = 0 → 0 < S →
      (lfsc_fwrite be SZ w stream ptr S N).1 = 0 := by
    intro h0 hS
    simp only [lfsc_fwrite, htot, h0]
    split_ifs with hz
    · have : N = 0 := by
        rcases Nat.eq_zero_or_pos N with h | h
        · exact h
        · have := Nat.mul_pos hS h
          omega
      simpa using this
    · rfl
  refine ⟨?_, ?_, ?_, ?_⟩
  · have hm : leBytes 4 lfsc_magic = [0x55, 0xaa, 0x55, 0xaa] := by decide
    have ho : leBytes 4 4 = [4, 0, 0, 0] := by decide
    rw [hout, hmod, hm, ho, List.take_of_length_le (by omega)]
  · intro m s rest hin hm hs hmag hst
    have hcs : (lfsc_check_status be w).1 = LFSC_SOK := by
      rw [lfsc_check_status_word be w m s rest hin hm hs hmag]
      simp [hst]
    have h1 : (lfsc_write be w stream ptr (S * N)).1 = S * N := by
      rw [hret, hcs, hmod]
      simp
    refine ⟨h1, ?_⟩
    simp only [lfsc_fwrite, htot, h1, if_true]
  · intro m rest hin hm hne
    have hcs : (lfsc_check_status be w).1 = LFSC_SERR_BAD_MAGIC := by
      rw [lfsc_check_status_bad be w m rest hin hm hne]
    have h0 : (lfsc_write be w stream ptr (S * N)).1 = 0 := by
      rw [hret, hcs]
      simp
    exact ⟨h0, hfail h0⟩
  · intro m s rest hin hm hs hmag hst
    have hcs : (lfsc_check_status be w).1 = LFSC_SERR_OPERATION_FAILED := by
      rw [lfsc_check_status_word be w m s rest hin hm hs hmag]
      simp [hst]
    have h0 : (lfsc_write be w stream ptr (S * N)).1 = 0 := by
      rw [hret, hcs]
      simp
    exact ⟨h0, hfail h0⟩

/-- Witness of C12 (amended): two elements of size 3, accepted. -/
theorem lfsc_write_spec_witness :
    (lfsc_write true ⟨[0x55, 0xaa, 0x55, 0xaa, 0, 0, 0, 0], [], none, 0, 0⟩ ⟨0, 5⟩
      [1, 2, 3, 4, 5, 6] (3 * 2)).1 = 3 * 2 ∧
    (lfsc_fwrite true 64 ⟨[0x55, 0xaa, 0x55, 0xaa, 0, 0, 0, 0], [], none, 0, 0⟩ ⟨0, 5⟩
      [1, 2, 3, 4, 5, 6] 3 2).1 = 2 :=
  (lfsc_write_spec true 64 ⟨[0x55, 0xaa, 0x55, 0xaa, 0, 0, 0, 0], [], none, 0, 0⟩ ⟨0, 5⟩
    [1, 2, 3, 4, 5, 6] 3 2 (by decide) rfl (by decide) (by decide)).2.1
    [0x55, 0xaa, 0x55, 0xaa] [0, 0, 0, 0] [] rfl rfl rfl (by decide) (by decide)


/-! ## Limited transports -/

theorem fits_of_accepting (w : World) (n : Nat) (h : w.accepting) : w.fits n = true := by
  simp only [World.accepting] at h
  simp [World.fits, h]

theorem fits_mono (w : World) (a b : Nat) (hab : a ≤ b) (h : w.fits b = true) :
    w.fits a = true := by
  obtain ⟨inp, out, room, mutex, bare⟩ := w
  cases room with
  | none => rfl
  | some r =>
    simp only [World.fits, decide_eq_true_eq] at h ⊢
    omega

theorem fits_some (w : World) (n r : Nat) (h : w.room = some r) :
    w.fits n = decide (n ≤ r) := by
  simp [World.fits, h]

theorem WriteFile_fits (w : World) (buf : List Nat) (n : Nat) :
    ((WriteFile w buf n).1 && decide ((WriteFile w buf n).2.1 = n)) = w.fits n ∧
    (w.fits n = true → ∀ k, (WriteFile w buf n).2.2.fits k = w.fits (n + k)) := by
  obtain ⟨inp, out, room, mutex, bare⟩ := w
  cases room with
  | none =>
    simp only [WriteFile, World.fits, World.touch, Option.map_none']
    have : (n = 0 ∨ 0 < n) := by omega
    simp [this]
  | some r =>
    simp only [WriteFile, World.fits, World.touch, Option.map_some']
    constructor
    · rw [Bool.eq_iff_iff]
      simp only [Bool.and_eq_true, decide_eq_true_eq]
      omega
    · intro h k
      simp only [decide_eq_true_eq] at h
      rw [Bool.eq_iff_iff]
      simp only [decide_eq_true_eq]
      omega

theorem lfsc_write_int_fits (be : Bool) (w : World) (v : List Nat) (n : Nat) :
    (lfsc_write_int be w v n).1 = w.fits n ∧
    (w.fits n = true → ∀ k, (lfsc_write_int be w v n).2.fits k = w.fits (n + k)) := by
  simp only [lfsc_write_int]
  exact WriteFile_fits w _ n

theorem lfsc_write_command_fits (be : Bool) (w : World) (handle : Nat) (cmd : lfsc_cmd) :
    (lfsc_write_command be w handle cmd).1 = w.fits 16 ∧
    (w.fits 16 = true → ∀ k, (lfsc_write_command be w handle cmd).2.fits k = w.fits (16 + k)) := by
  obtain ⟨a1, a2⟩ := lfsc_write_int_fits be w (toMem be 4 lfsc_magic) 4
  obtain ⟨b1, b2⟩ := lfsc_write_int_fits be (lfsc_write_int be w (toMem be 4 lfsc_magic) 4).2
    (toMem be 4 cmd.code) 4
  obtain ⟨c1, c2⟩ := lfsc_write_int_fits be
    (lfsc_write_int be (lfsc_write_int be w (toMem be 4 lfsc_magic) 4).2
      (toMem be 4 cmd.code) 4).2 (toMem be 8 handle) 8
  simp only [lfsc_write_command]
  by_cases h16 : w.fits 16 = true
  · have h4 : w.fits 4 = true := fits_mono w 4 16 (by decide) h16
    have h8 : w.fits (4 + 4) = true := fits_mono w 8 16 (by decide) h16
    have hb := a2 h4
    rw [hb 4] at b1
    have hc := b2 (by rw [hb 4]; exact h8)
    rw [hc 8, hb (4 + 8)] at c1
    have hd := c2 (by rw [hc 8, hb (4 + 8)]; exact h16)
    simp only [a1, h4, b1, h8, c1, Bool.not_true, Bool.false_eq_true, if_false]
    have e : w.fits (4 + (4 + 8)) = true := h16
    simp only [e, Bool.not_true, Bool.false_eq_true, if_false, h16, true_and]
    intro _ k
    rw [hd k, hc (8 + k), hb (4 + (8 + k))]
    congr 1
    omega
  · have h16f : w.fits 16 = false := by simpa using h16
    simp only [h16f, Bool.false_eq_true, false_implies, and_true]
    by_cases h4 : w.fits 4 = true
    · have hb := a2 h4
      rw [hb 4] at b1
      by_cases h8 : w.fits (4 + 4) = true
      · have hc := b2 (by rw [hb 4]; exact h8)
        rw [hc 8, hb (4 + 8)] at c1
        have e : w.fits (4 + (4 + 8)) = false := h16f
        simp [a1, h4, b1, h8, c1, e]
      · have h8f : w.fits (4 + 4) = false := by simpa using h8
        simp [a1, h4, b1, h8f]
    · have h4f : w.fits 4 = false := by simpa using h4
      simp [a1, h4f]


/-! ## Flush and close -/

theorem lfsc_fclose_eval (be : Bool) (w : World) (stream : lfsc_file) :
    (lfsc_fclose be w stream).1
      = (if w.fits 16 = true ∧ (lfsc_check_status be w).1 = LFSC_SOK then 0 else EOF) ∧
    (w.fits 16 = true →
      (lfsc_fclose be w stream).2.inp = (lfsc_check_status be w).2.inp) := by
  obtain ⟨a1, _⟩ := lfsc_write_command_fits be (WaitForSingleObject w) stream.handle LFSC_CCLOSE
  have hf : (WaitForSingleObject w).fits 16 = w.fits 16 := rfl
  rw [hf] at a1
  have hst : (lfsc_check_status be
      (lfsc_write_command be (WaitForSingleObject w) stream.handle LFSC_CCLOSE).2).1
        = (lfsc_check_status be w).1 :=
    lfsc_check_status_fst_inp be _ w (by simp)
  have hin : (lfsc_check_status be
      (lfsc_write_command be (WaitForSingleObject w) stream.handle LFSC_CCLOSE).2).2.inp
        = (lfsc_check_status be w).2.inp := by
    rw [lfsc_check_status_eval, lfsc_check_status_eval]
    simp only [lfsc_write_command_inp, wait_inp]
    split_ifs <;> rfl
  simp only [lfsc_fclose, a1, hst]
  by_cases h16 : w.fits 16 = true
  · simp only [h16, Bool.not_true, Bool.false_eq_true, if_false, true_and, forall_const]
    split_ifs <;> simp_all
  · have h16f : w.fits 16 = false := by simpa using h16
    simp [h16f]

/-- C13: `lfsc_fflush` and `lfsc_fclose` yield the same return value and the
same state of the transport from every state, for every file handle. On a
transport that accepts everything both append the 16-byte command header with
opcode 2 and the handle's id and nothing else. They return 0 and consume
exactly the 8 header bytes when the request is accepted and the response has
the correct magic and status 0, and return `EOF` when the request is not
accepted in full, when the response is shorter than 8 bytes, when the magic is
mismatched and when the status word is non-zero. -/
theorem lfsc_fflush_eq_fclose (be : Bool) (w : World) (stream : lfsc_file) :
    lfsc_fflush be w stream = lfsc_fclose be w stream ∧
    (w.accepting →
      (lfsc_fclose be w stream).2.out
        = w.out ++ ([0x55, 0xaa, 0x55, 0xaa] ++ [2, 0, 0, 0] ++ leBytes 8 stream.handle)) ∧
    (∀ m s rest, w.fits 16 = true → w.inp = m ++ s ++ rest → m.length = 4 → s.length = 4 →
      leVal m = 0xaa55aa55 → leVal s = 0 →
      (lfsc_fclose be w stream).1 = 0 ∧ (lfsc_fclose be w stream).2.inp = rest) ∧
    (w.fits 16 = false → (lfsc_fclose be w stream).1 = EOF) ∧
    (w.inp.length < 8 → (lfsc_fclose be w stream).1 = EOF) ∧
    (leVal (w.inp.take 4) ≠ 0xaa55aa55 → (lfsc_fclose be w stream).1 = EOF) ∧
    (leVal ((w.inp.drop 4).take 4) ≠ 0 → (lfsc_fclose be w stream).1 = EOF) ∧
    EOF = -1 := by
  obtain ⟨hret, hinp⟩ := lfsc_fclose_eval be w stream
  have hfail : ∀ P : Prop, ¬ P → ((lfsc_check_status be w).1 = LFSC_SOK → P) →
      (lfsc_fclose be w stream).1 = EOF := by
    intro P hnp himp
    rw [hret, if_neg]
    rintro ⟨_, hok⟩
    exact hnp (himp hok)
  refine ⟨rfl, ?_, ?_, ?_, ?_, ?_, ?_, rfl⟩
  · intro hw
    have hw0 : (WaitForSingleObject w).accepting := by simpa using hw
    have hm : leBytes 4 lfsc_magic = [0x55, 0xaa, 0x55, 0xaa] := by decide
    have ho : leBytes 4 2 = [2, 0, 0, 0] := by decide
    simp only [lfsc_fclose, lfsc_write_command_accepting _ _ _ _ hw0, lfsc_cmd.code, hm, ho]
    split_ifs <;> simp
  · intro m s rest hfit hin hm hs hmag hst
    have hcs := lfsc_check_status_word be w m s rest hin hm hs hmag
    simp only [hst, ne_eq, not_true_eq_false, if_false] at hcs
    refine ⟨?_, ?_⟩
    · rw [hret, if_pos ⟨hfit, by rw [hcs]⟩]
    · rw [hinp hfit, hcs]
      rfl
  · intro hf
    rw [hret, if_neg]
    rintro ⟨h, _⟩
    rw [hf] at h
    exact Bool.noConfusion h
  · intro hlt
    exact hfail (8 ≤ w.inp.length) (by omega) (fun hok => (lfsc_check_status_ok_inp be w hok).1)
  · intro hne
    exact hfail _ hne (fun hok => (lfsc_check_status_ok_inp be w hok).2.1)
  · intro hne
    exact hfail _ hne (fun hok => (lfsc_check_status_ok_inp be w hok).2.2.1)


/-- Witness of C13: a close answered with success. -/
theorem lfsc_fflush_eq_fclose_witness :
    lfsc_fflush true ⟨[0x55, 0xaa, 0x55, 0xaa, 0, 0, 0, 0, 7], [], none, 0, 0⟩ ⟨0, 5⟩
      = lfsc_fclose true ⟨[0x55, 0xaa, 0x55, 0xaa, 0, 0, 0, 0, 7], [], none, 0, 0⟩ ⟨0, 5⟩ ∧
    (lfsc_fclose true ⟨[0x55, 0xaa, 0x55, 0xaa, 0, 0, 0, 0, 7], [], none, 0, 0⟩ ⟨0, 5⟩).1 = 0 ∧
    (lfsc_fclose true ⟨[0x55, 0xaa, 0x55, 0xaa, 0, 0, 0, 0, 7], [], none, 0, 0⟩ ⟨0, 5⟩).2.inp
      = [7] :=
  have h := lfsc_fflush_eq_fclose true
    ⟨[0x55, 0xaa, 0x55, 0xaa, 0, 0, 0, 0, 7], [], none, 0, 0⟩ ⟨0, 5⟩
  have h2 := h.2.2.1 [0x55, 0xaa, 0x55, 0xaa] [0, 0, 0, 0] [7] rfl rfl rfl rfl
    (by decide) (by decide)
  ⟨h.1, h2.1, h2.2⟩

/-! ## Capability flags: the reported value -/

theorem lfsc_check_status_okhdr (be : Bool) (w : World) (tail : List Nat)
    (h : w.inp = [0x55, 0xaa, 0x55, 0xaa, 0, 0, 0, 0] ++ tail) :
    lfsc_check_status be w = (LFSC_SOK, w.after 2 tail w.out) := by
  rw [lfsc_check_status_word be w [0x55, 0xaa, 0x55, 0xaa] [0, 0, 0, 0] tail
    (by simpa using h) rfl rfl (by decide)]
  simp [leVal]

theorem lfsc_read_int_byte (be : Bool) (w : World) (b : Nat) (tail : List Nat)
    (h : w.inp = b :: tail) :
    (lfsc_read_int be w 1).1 = true ∧ ofMem be (lfsc_read_int be w 1).2.1 = b ∧
    (lfsc_read_int be w 1).2.2 = w.after 1 tail w.out := by
  rw [lfsc_read_int_full be w [b] tail 1 rfl (by simpa using h)]
  refine ⟨rfl, ?_, rfl⟩
  simp only
  rw [ofMem_flip be [b] 1 rfl]
  simp [leVal]

/-- One successful capability exchange on a transport that accepts everything. -/
theorem capability_exchange (be : Bool) (v : World) (handle : Nat) (cmd : lfsc_cmd)
    (b : Nat) (tail : List Nat) (hv : v.accepting)
    (h : v.inp = [0x55, 0xaa, 0x55, 0xaa, 0, 0, 0, 0] ++ b :: tail) :
    (lfsc_write_command be v handle cmd).1 = true ∧
    (lfsc_check_status be (lfsc_write_command be v handle cmd).2).1 = LFSC_SOK ∧
    (lfsc_read_int be (lfsc_check_status be (lfsc_write_command be v handle cmd).2).2 1).1
      = true ∧
    ofMem be (lfsc_read_int be
      (lfsc_check_status be (lfsc_write_command be v handle cmd).2).2 1).2.1 = b ∧
    (lfsc_read_int be (lfsc_check_status be (lfsc_write_command be v handle cmd).2).2 1).2.2
      = v.after 6 tail (v.out ++ (leBytes 4 lfsc_magic ++ leBytes 4 cmd.code
          ++ leBytes 8 handle)) := by
  rw [lfsc_write_command_accepting be v handle cmd hv]
  simp only
  rw [lfsc_check_status_okhdr be _ (b :: tail) (by simpa using h)]
  simp only [after_after, after_out]
  obtain ⟨r1, r2, r3⟩ := lfsc_read_int_byte be
    (v.after (3 + 2) (b :: tail) (v.out ++ (leBytes 4 lfsc_magic ++ leBytes 4 cmd.code
      ++ leBytes 8 handle))) b tail rfl
  refine ⟨trivial, trivial, r1, r2, ?_⟩
  rw [r3]
  simp


theorem flags_fold (f : Nat) (a b c : Prop) [Decidable a] [Decidable b] [Decidable c] :
    (if c then (if b then (if a then f ||| 1 else f) ||| 2 else (if a then f ||| 1 else f)) ||| 4
      else (if b then (if a then f ||| 1 else f) ||| 2 else (if a then f ||| 1 else f)))
      = f ||| ((if a then 1 else 0) ||| (if b then 2 else 0) ||| (if c then 4 else 0)) := by
  by_cases ha : a <;> by_cases hb : b <;> by_cases hc : c <;>
    simp [ha, hb, hc, Nat.lor_assoc]

/-- C14, the code at a failing input: all three capability exchanges succeed
with the answer 0 and `*out_flags` holds 8 before the call. `lfsc_get_flags`
returns `LFSC_SOK` and, because it only ever executes `*out_flags |= ...` and
never assigns `*out_flags`, the value reported is still 8, not the mask
(0 ? 1 : 0) | (0 ? 2 : 0) | (0 ? 4 : 0) = 0. -/
theorem lfsc_get_flags_keeps_old_bits :
    (lfsc_get_flags false
      ⟨[0x55, 0xaa, 0x55, 0xaa, 0, 0, 0, 0, 0, 0x55, 0xaa, 0x55, 0xaa, 0, 0, 0, 0, 0,
        0x55, 0xaa, 0x55, 0xaa, 0, 0, 0, 0, 0], [], none, 0, 0⟩ ⟨0, 5⟩ 8).1 = LFSC_SOK ∧
    (lfsc_get_flags false
      ⟨[0x55, 0xaa, 0x55, 0xaa, 0, 0, 0, 0, 0, 0x55, 0xaa, 0x55, 0xaa, 0, 0, 0, 0, 0,
        0x55, 0xaa, 0x55, 0xaa, 0, 0, 0, 0, 0], [], none, 0, 0⟩ ⟨0, 5⟩ 8).2.1 = 8 ∧
    (lfsc_get_flags false
      ⟨[0x55, 0xaa, 0x55, 0xaa, 0, 0, 0, 0, 0, 0x55, 0xaa, 0x55, 0xaa, 0, 0, 0, 0, 0,
        0x55, 0xaa, 0x55, 0xaa, 0, 0, 0, 0, 0], [], none, 0, 0⟩ ⟨0, 5⟩ 8).2.1
      ≠ ((if (0 : Nat) ≠ 0 then 1 else 0) ||| (if (0 : Nat) ≠ 0 then 2 else 0)
          ||| (if (0 : Nat) ≠ 0 then 4 else 0)) := by
  decide

/-- What the success path of `lfsc_get_flags` stores. When the three capability
exchanges succeed on a transport that accepts everything, with the answers
`can_seek`, `can_write`, `can_read` to the opcodes 9, 11, 10 sent in that
order, the function returns `LFSC_SOK` and `*out_flags` ends as its value
before the call with the bits (can_seek ? 1 : 0) | (can_read ? 2 : 0) |
(can_write ? 4 : 0) set in addition: the bits set before the call are never
cleared, and the value is the mask only if `*out_flags` was 0 before. -/
theorem lfsc_get_flags_value (be : Bool) (w : World) (stream : lfsc_file)
    (out_flags can_seek can_write can_read : Nat) (rest : List Nat) (hw : w.accepting)
    (hin : w.inp = [0x55, 0xaa, 0x55, 0xaa, 0, 0, 0, 0] ++ can_seek ::
      ([0x55, 0xaa, 0x55, 0xaa, 0, 0, 0, 0] ++ can_write ::
        ([0x55, 0xaa, 0x55, 0xaa, 0, 0, 0, 0] ++ can_read :: rest))) :
    (lfsc_get_flags be w stream out_flags).1 = LFSC_SOK ∧
    (lfsc_get_flags be w stream out_flags).2.1
      = out_flags ||| ((if can_seek ≠ 0 then 1 else 0) ||| (if can_read ≠ 0 then 2 else 0)
          ||| (if can_write ≠ 0 then 4 else 0)) ∧
    (out_flags = 0 →
      (lfsc_get_flags be w stream out_flags).2.1
        = ((if can_seek ≠ 0 then 1 else 0) ||| (if can_read ≠ 0 then 2 else 0)
            ||| (if can_write ≠ 0 then 4 else 0))) ∧
    (lfsc_get_flags be w stream out_flags).2.2.out
      = w.out ++ ([0x55, 0xaa, 0x55, 0xaa] ++ [9, 0, 0, 0] ++ leBytes 8 stream.handle
          ++ ([0x55, 0xaa, 0x55, 0xaa] ++ [11, 0, 0, 0] ++ leBytes 8 stream.handle)
          ++ ([0x55, 0xaa, 0x55, 0xaa] ++ [10, 0, 0, 0] ++ leBytes 8 stream.handle)) ∧
    (lfsc_get_flags be w stream out_flags).2.2.inp = rest := by
  have hw0 : (WaitForSingleObject w).accepting := by simpa using hw
  obtain ⟨a1, a2, a3, a4, a5⟩ := capability_exchange be (WaitForSingleObject w) stream.handle
    LFSC_CGET_CAN_SEEK can_seek
    ([0x55, 0xaa, 0x55, 0xaa, 0, 0, 0, 0] ++ can_write ::
      ([0x55, 0xaa, 0x55, 0xaa, 0, 0, 0, 0] ++ can_read :: rest)) hw0 hin
  simp only [wait_out] at a5
  obtain ⟨b1, b2, b3, b4, b5⟩ := capability_exchange be
    ((WaitForSingleObject w).after 6
      ([0x55, 0xaa, 0x55, 0xaa, 0, 0, 0, 0] ++ can_write ::
        ([0x55, 0xaa, 0x55, 0xaa, 0, 0, 0, 0] ++ can_read :: rest))
      (w.out ++ (leBytes 4 lfsc_magic
        ++ leBytes 4 LFSC_CGET_CAN_SEEK.code ++ leBytes 8 stream.handle)))
    stream.handle LFSC_CGET_CAN_WRITE can_write
    ([0x55, 0xaa, 0x55, 0xaa, 0, 0, 0, 0] ++ can_read :: rest) (by simpa using hw0) rfl
  simp only [after_after, after_out] at b1 b2 b3 b4 b5
  obtain ⟨c1, c2, c3, c4, c5⟩ := capability_exchange be
    ((WaitForSingleObject w).after (6 + 6)
      ([0x55, 0xaa, 0x55, 0xaa, 0, 0, 0, 0] ++ can_read :: rest)
      (w.out ++ (leBytes 4 lfsc_magic
        ++ leBytes 4 LFSC_CGET_CAN_SEEK.code ++ leBytes 8 stream.handle)
        ++ (leBytes 4 lfsc_magic ++ leBytes 4 LFSC_CGET_CAN_WRITE.code
          ++ leBytes 8 stream.handle)))
    stream.handle LFSC_CGET_CAN_READ can_read rest (by simpa using hw0) rfl
  simp only [after_after, after_out] at c1 c2 c3 c4 c5
  have hval : (lfsc_get_flags be w stream out_flags)
      = (LFSC_SOK,
          out_flags ||| ((if can_seek ≠ 0 then 1 else 0) ||| (if can_read ≠ 0 then 2 else 0)
            ||| (if can_write ≠ 0 then 4 else 0)),
          w.after 0 rest (w.out ++ (leBytes 4 lfsc_magic
            ++ leBytes 4 LFSC_CGET_CAN_SEEK.code ++ leBytes 8 stream.handle)
            ++ (leBytes 4 lfsc_magic ++ leBytes 4 LFSC_CGET_CAN_WRITE.code
              ++ leBytes 8 stream.handle)
            ++ (leBytes 4 lfsc_magic ++ leBytes 4 LFSC_CGET_CAN_READ.code
              ++ leBytes 8 stream.handle))) := by
    simp only [lfsc_get_flags, a1, a2, a3, a4, a5, b1, b2, b3, b4, b5, c1, c2, c3, c4, c5,
      Bool.not_true, Bool.false_eq_true, if_false, ne_eq, not_true_eq_false,
      release_wait_after, wait_out, LFSC_CAN_SEEK, LFSC_CAN_READ, LFSC_CAN_WRITE]
    rw [← flags_fold out_flags (¬ can_seek = 0) (¬ can_read = 0) (¬ can_write = 0)]
  rw [hval]
  have hm : leBytes 4 lfsc_magic = [0x55, 0xaa, 0x55, 0xaa] := by decide
  have h9 : leBytes 4 LFSC_CGET_CAN_SEEK.code = [9, 0, 0, 0] := by decide
  have h11 : leBytes 4 LFSC_CGET_CAN_WRITE.code = [11, 0, 0, 0] := by decide
  have h10 : leBytes 4 LFSC_CGET_CAN_READ.code = [10, 0, 0, 0] := by decide
  refine ⟨rfl, rfl, ?_, ?_, rfl⟩
  · intro h0
    subst h0
    simp
  · simp only [after_out, hm, h9, h11, h10, List.append_assoc]


/-- An instance of `lfsc_get_flags_value`: seekable and readable, not writable,
with `*out_flags` cleared by the caller. -/
theorem lfsc_get_flags_value_witness :
    (lfsc_get_flags true
      ⟨[0x55, 0xaa, 0x55, 0xaa, 0, 0, 0, 0] ++ 1 :: ([0x55, 0xaa, 0x55, 0xaa, 0, 0, 0, 0] ++
        0 :: ([0x55, 0xaa, 0x55, 0xaa, 0, 0, 0, 0] ++ 1 :: [])), [], none, 0, 0⟩
      ⟨0, 5⟩ 0).1 = LFSC_SOK ∧
    (lfsc_get_flags true
      ⟨[0x55, 0xaa, 0x55, 0xaa, 0, 0, 0, 0] ++ 1 :: ([0x55, 0xaa, 0x55, 0xaa, 0, 0, 0, 0] ++
        0 :: ([0x55, 0xaa, 0x55, 0xaa, 0, 0, 0, 0] ++ 1 :: [])), [], none, 0, 0⟩
      ⟨0, 5⟩ 0).2.1
      = ((if (1 : Nat) ≠ 0 then 1 else 0) ||| (if (1 : Nat) ≠ 0 then 2 else 0)
          ||| (if (0 : Nat) ≠ 0 then 4 else 0)) :=
  have h := lfsc_get_flags_value true
    ⟨[0x55, 0xaa, 0x55, 0xaa, 0, 0, 0, 0] ++ 1 :: ([0x55, 0xaa, 0x55, 0xaa, 0, 0, 0, 0] ++
      0 :: ([0x55, 0xaa, 0x55, 0xaa, 0, 0, 0, 0] ++ 1 :: [])), [], none, 0, 0⟩
    ⟨0, 5⟩ 0 1 0 1 [] (by decide) rfl
  ⟨h.1, h.2.2.1 rfl⟩

/-! ## Open: the status returned -/

theorem lfsc_write_string_fits (be : Bool) (w : World) (str : List Nat) (n : Nat) :
    (lfsc_write_string be w str n).1 = w.fits (4 + n) := by
  obtain ⟨a1, a2⟩ := lfsc_write_int_fits be w (toMem be 4 n) 4
  simp only [lfsc_write_string, a1]
  by_cases h4 : w.fits 4 = true
  · obtain ⟨b1, _⟩ := WriteFile_fits (lfsc_write_int be w (toMem be 4 n) 4).2 str n
    simp only [h4, Bool.not_true, Bool.false_eq_true, if_false, b1, a2 h4 n]
  · have h4f : w.fits 4 = false := by simpa using h4
    have : w.fits (4 + n) = false := by
      by_contra hc
      have ht : w.fits (4 + n) = true := by simpa using hc
      exact h4 (fits_mono w 4 (4 + n) (by omega) ht)
    simp [h4f, this]

theorem lfsc_ctx_fopen_after_writes (be : Bool) (ctx : Nat) (v w : World)
    (out_file : Option lfsc_file) (hv : v.inp = w.inp) :
    (((if (lfsc_check_status be v).1 ≠ LFSC_SOK then
        ((lfsc_check_status be v).1, out_file, ReleaseMutex (lfsc_check_status be v).2)
      else if !(lfsc_read_int be (lfsc_check_status be v).2 8).1 then
        (LFSC_SERR_READ_PIPE, out_file,
          ReleaseMutex (lfsc_read_int be (lfsc_check_status be v).2 8).2.2)
      else
        (LFSC_SOK,
          some ⟨ctx, ofMem be (lfsc_read_int be (lfsc_check_status be v).2 8).2.1⟩,
          ReleaseMutex (lfsc_read_int be (lfsc_check_status be v).2 8).2.2)) :
        lfsc_status × Option lfsc_file × World).1,
     ((if (lfsc_check_status be v).1 ≠ LFSC_SOK then
        ((lfsc_check_status be v).1, out_file, ReleaseMutex (lfsc_check_status be v).2)
      else if !(lfsc_read_int be (lfsc_check_status be v).2 8).1 then
        (LFSC_SERR_READ_PIPE, out_file,
          ReleaseMutex (lfsc_read_int be (lfsc_check_status be v).2 8).2.2)
      else
        (LFSC_SOK,
          some ⟨ctx, ofMem be (lfsc_read_int be (lfsc_check_status be v).2 8).2.1⟩,
          ReleaseMutex (lfsc_read_int be (lfsc_check_status be v).2 8).2.2)) :
        lfsc_status × Option lfsc_file × World).2.1)
      = (if (lfsc_check_status be w).1 ≠ LFSC_SOK then ((lfsc_check_status be w).1, out_file)
        else if w.inp.length < 16 then (LFSC_SERR_READ_PIPE, out_file)
        else (LFSC_SOK, some ⟨ctx, leVal ((w.inp.drop 8).take 8)⟩)) := by
  have hst : (lfsc_check_status be v).1 = (lfsc_check_status be w).1 :=
    lfsc_check_status_fst_inp be v w hv
  by_cases hok : (lfsc_check_status be w).1 = LFSC_SOK
  · obtain ⟨k1, k2, k3, k4⟩ := lfsc_check_status_ok_inp be v (hst.trans hok)
    rw [hv] at k1 k4
    have hr := lfsc_read_int_eval be (lfsc_check_status be v).2 8 (by decide)
    rw [k4] at hr
    simp only [hst, hok, ne_eq, not_true_eq_false, if_false, hr, List.length_drop]
    by_cases h16 : w.inp.length < 16
    · have : ¬ (8 ≤ w.inp.length - 8) := by omega
      simp [this, h16]
    · have h8l : 8 ≤ w.inp.length - 8 := by omega
      have hl : (List.take 8 (List.drop 8 w.inp)).length = 8 := by
        simp only [List.length_take, List.length_drop]; omega
      simp only [h8l, h16, decide_True, Bool.not_true, Bool.false_eq_true, if_false, hl,
        Nat.sub_self, List.replicate_zero, List.append_nil, ofMem_flip be _ 8 hl]
  · simp [hst, hok]

theorem lfsc_ctx_fopen_eval (be : Bool) (ctx : Nat) (w : World) (out_file : Option lfsc_file)
    (name : List Nat) :
    ((lfsc_ctx_fopen be ctx w out_file name true).1,
      (lfsc_ctx_fopen be ctx w out_file name true).2.1)
      = (if w.fits (12 + (wcslen name * 2) % 2 ^ 32) = false then
          (LFSC_SERR_WRITE_PIPE, out_file)
        else if (lfsc_check_status be w).1 ≠ LFSC_SOK then
          ((lfsc_check_status be w).1, out_file)
        else if w.inp.length < 16 then (LFSC_SERR_READ_PIPE, out_file)
        else (LFSC_SOK, some ⟨ctx, leVal ((w.inp.drop 8).take 8)⟩)) := by
  have hf0 : ∀ k, (WaitForSingleObject w).fits k = w.fits k := fun _ => rfl
  obtain ⟨a1, a2⟩ := lfsc_write_int_fits be (WaitForSingleObject w) (toMem be 4 lfsc_magic) 4
  obtain ⟨b1, b2⟩ := lfsc_write_int_fits be
    (lfsc_write_int be (WaitForSingleObject w) (toMem be 4 lfsc_magic) 4).2
    (toMem be 4 LFSC_COPEN.code) 4
  have c1 := lfsc_write_string_fits be
    (lfsc_write_int be (lfsc_write_int be (WaitForSingleObject w) (toMem be 4 lfsc_magic) 4).2
      (toMem be 4 LFSC_COPEN.code) 4).2 (wcharMem be name) ((wcslen name * 2) % 2 ^ 32)
  rw [hf0] at a1
  simp only [hf0] at a2
  simp only [lfsc_ctx_fopen, a1, b1, c1]
  by_cases hfit : w.fits (12 + (wcslen name * 2) % 2 ^ 32) = true
  · have h4 : w.fits 4 = true := fits_mono w 4 _ (by omega) hfit
    have h8 : w.fits (4 + 4) = true := fits_mono w 8 _ (by omega) hfit
    have hb := a2 h4
    have hc := b2 (by rw [hb 4]; exact h8)
    have h12 : (lfsc_write_int be
        (lfsc_write_int be (WaitForSingleObject w) (toMem be 4 lfsc_magic) 4).2
        (toMem be 4 LFSC_COPEN.code) 4).2.fits (4 + (wcslen name * 2) % 2 ^ 32) = true := by
      rw [hc, hb, ← hfit]
      congr 1
      omega
    simp only [h4, hb 4, h8, h12, hfit, Bool.not_true, Bool.false_eq_true, if_false]
    exact lfsc_ctx_fopen_after_writes be ctx _ w out_file (by simp)
  · have hfitf : w.fits (12 + (wcslen name * 2) % 2 ^ 32) = false := by simpa using hfit
    simp only [hfitf, if_true]
    by_cases h4 : w.fits 4 = true
    · have hb := a2 h4
      by_cases h8 : w.fits (4 + 4) = true
      · have hc := b2 (by rw [hb 4]; exact h8)
        have h12 : (lfsc_write_int be
            (lfsc_write_int be (WaitForSingleObject w) (toMem be 4 lfsc_magic) 4).2
            (toMem be 4 LFSC_COPEN.code) 4).2.fits (4 + (wcslen name * 2) % 2 ^ 32)
              = false := by
          rw [hc, hb, ← hfitf]
          congr 1
          omega
        norm_num at h12
        simp [h4, hb 4, h8, h12]
      · have h8f : w.fits (4 + 4) = false := by simpa using h8
        simp [h4, hb 4, h8f]
    · have h4f : w.fits 4 = false := by simpa using h4
      simp [h4f]


/-- C15: the status of `lfsc_ctx_fopen` when the allocation succeeds. It is
`LFSC_SERR_WRITE_PIPE` when the transport does not take the whole request (the
4 magic bytes, the 4 opcode bytes, the 4 length bytes and the name), otherwise
`LFSC_SERR_READ_PIPE` when the response stops inside the magic, the status
word or the 8-byte handle id, `LFSC_SERR_BAD_MAGIC` on a mismatched magic and
`LFSC_SERR_OPERATION_FAILED` on a non-zero status word, each decided at its
own step; it is `LFSC_SOK` exactly when no step fails. With `LFSC_SOK` the new
file object holds the address of the calling context and the id decoded from
the 8 bytes after the header; with any other status `*out_file` is unchanged. -/
theorem lfsc_ctx_fopen_status (be : Bool) (ctx : Nat) (w : World)
    (out_file : Option lfsc_file) (name : List Nat) :
    (lfsc_ctx_fopen be ctx w out_file name true).1
      = (if w.fits (12 + (name.length * 2) % 2 ^ 32) = false then LFSC_SERR_WRITE_PIPE
        else if w.inp.length < 4 then LFSC_SERR_READ_PIPE
        else if leVal (w.inp.take 4) ≠ 0xaa55aa55 then LFSC_SERR_BAD_MAGIC
        else if w.inp.length < 8 then LFSC_SERR_READ_PIPE
        else if leVal ((w.inp.drop 4).take 4) ≠ 0 then LFSC_SERR_OPERATION_FAILED
        else if w.inp.length < 16 then LFSC_SERR_READ_PIPE
        else LFSC_SOK) ∧
    ((lfsc_ctx_fopen be ctx w out_file name true).1 = LFSC_SOK →
      (lfsc_ctx_fopen be ctx w out_file name true).2.1
        = some ⟨ctx, leVal ((w.inp.drop 8).take 8)⟩) ∧
    ((lfsc_ctx_fopen be ctx w out_file name true).1 ≠ LFSC_SOK →
      (lfsc_ctx_fopen be ctx w out_file name true).2.1 = out_file) ∧
    (∀ k, k ≤ 12 + (name.length * 2) % 2 ^ 32 → w.fits k = false →
      (lfsc_ctx_fopen be ctx w out_file name true).1 = LFSC_SERR_WRITE_PIPE) ∧
    (w.accepting → w.fits (12 + (name.length * 2) % 2 ^ 32) = true) ∧
    (∀ r, w.room = some r →
      w.fits (12 + (name.length * 2) % 2 ^ 32)
        = decide (12 + (name.length * 2) % 2 ^ 32 ≤ r)) := by
  have hev := lfsc_ctx_fopen_eval be ctx w out_file name
  simp only [wcslen] at hev
  have h1 : (lfsc_ctx_fopen be ctx w out_file name true).1
      = (if w.fits (12 + (name.length * 2) % 2 ^ 32) = false then LFSC_SERR_WRITE_PIPE
        else if (lfsc_check_status be w).1 ≠ LFSC_SOK then (lfsc_check_status be w).1
        else if w.inp.length < 16 then LFSC_SERR_READ_PIPE
        else LFSC_SOK) := by
    have h := congrArg Prod.fst hev
    simp only at h
    rw [h]
    split_ifs <;> rfl
  have h2 : (lfsc_ctx_fopen be ctx w out_file name true).2.1
      = (if w.fits (12 + (name.length * 2) % 2 ^ 32) = false then out_file
        else if (lfsc_check_status be w).1 ≠ LFSC_SOK then out_file
        else if w.inp.length < 16 then out_file
        else some ⟨ctx, leVal ((w.inp.drop 8).take 8)⟩) := by
    have h := congrArg Prod.snd hev
    simp only at h
    rw [h]
    split_ifs <;> rfl
  have hcs : (lfsc_check_status be w).1
      = (if w.inp.length < 4 then LFSC_SERR_READ_PIPE
        else if leVal (w.inp.take 4) ≠ lfsc_magic then LFSC_SERR_BAD_MAGIC
        else if w.inp.length < 8 then LFSC_SERR_READ_PIPE
        else if leVal ((w.inp.drop 4).take 4) ≠ 0 then LFSC_SERR_OPERATION_FAILED
        else LFSC_SOK) := by
    rw [lfsc_check_status_eval]
    split_ifs <;> rfl
  have hne1 : LFSC_SERR_READ_PIPE ≠ LFSC_SOK := by decide
  have hne2 : LFSC_SERR_BAD_MAGIC ≠ LFSC_SOK := by decide
  have hne3 : LFSC_SERR_OPERATION_FAILED ≠ LFSC_SOK := by decide
  have hstat' : (lfsc_ctx_fopen be ctx w out_file name true).1
      = (if w.fits (12 + (name.length * 2) % 2 ^ 32) = false then LFSC_SERR_WRITE_PIPE
        else if w.inp.length < 4 then LFSC_SERR_READ_PIPE
        else if leVal (w.inp.take 4) ≠ lfsc_magic then LFSC_SERR_BAD_MAGIC
        else if w.inp.length < 8 then LFSC_SERR_READ_PIPE
        else if leVal ((w.inp.drop 4).take 4) ≠ 0 then LFSC_SERR_OPERATION_FAILED
        else if w.inp.length < 16 then LFSC_SERR_READ_PIPE
        else LFSC_SOK) := by
    rw [h1, hcs]
    by_cases hF : w.fits (12 + (name.length * 2) % 2 ^ 32) = false
    · rw [if_pos hF, if_pos hF]
    · rw [if_neg hF, if_neg hF]
      by_cases h4 : w.inp.length < 4
      · simp only [if_pos h4, if_pos hne1]
      · simp only [if_neg h4]
        by_cases hm : leVal (w.inp.take 4) ≠ lfsc_magic
        · simp only [if_pos hm, if_pos hne2]
        · simp only [if_neg hm]
          by_cases h8 : w.inp.length < 8
          · simp only [if_pos h8, if_pos hne1]
          · simp only [if_neg h8]
            by_cases hs : leVal ((w.inp.drop 4).take 4) ≠ 0
            · simp only [if_pos hs, if_pos hne3]
            · simp only [if_neg hs, ne_eq, not_true_eq_false, if_false]
  have hstat : (lfsc_ctx_fopen be ctx w out_file name true).1
      = (if w.fits (12 + (name.length * 2) % 2 ^ 32) = false then LFSC_SERR_WRITE_PIPE
        else if w.inp.length < 4 then LFSC_SERR_READ_PIPE
        else if leVal (w.inp.take 4) ≠ 0xaa55aa55 then LFSC_SERR_BAD_MAGIC
        else if w.inp.length < 8 then LFSC_SERR_READ_PIPE
        else if leVal ((w.inp.drop 4).take 4) ≠ 0 then LFSC_SERR_OPERATION_FAILED
        else if w.inp.length < 16 then LFSC_SERR_READ_PIPE
        else LFSC_SOK) := hstat'
  refine ⟨hstat, ?_, ?_, ?_, ?_, ?_⟩
  · intro hok
    rw [h2]
    rw [h1] at hok
    by_cases hF : w.fits (12 + (name.length * 2) % 2 ^ 32) = false
    · rw [if_pos hF] at hok
      exact absurd hok (by decide)
    · rw [if_neg hF] at hok ⊢
      by_cases hc : (lfsc_check_status be w).1 ≠ LFSC_SOK
      · rw [if_pos hc] at hok
        exact absurd hok hc
      · rw [if_neg hc] at hok ⊢
        by_cases h16 : w.inp.length < 16
        · rw [if_pos h16] at hok
          exact absurd hok (by decide)
        · rw [if_neg h16]
  · intro hne
    rw [h2]
    rw [h1] at hne
    by_cases hF : w.fits (12 + (name.length * 2) % 2 ^ 32) = false
    · rw [if_pos hF]
    · rw [if_neg hF] at hne ⊢
      by_cases hc : (lfsc_check_status be w).1 ≠ LFSC_SOK
      · rw [if_pos hc]
      · rw [if_neg hc] at hne ⊢
        by_cases h16 : w.inp.length < 16
        · rw [if_pos h16]
        · rw [if_neg h16] at hne
          exact absurd rfl hne
  · intro k hk hf
    have : w.fits (12 + (name.length * 2) % 2 ^ 32) = false := by
      by_contra hc
      have ht : w.fits (12 + (name.length * 2) % 2 ^ 32) = true := by simpa using hc
      have := fits_mono w k _ hk ht
      rw [hf] at this
      exact Bool.noConfusion this
    rw [hstat, if_pos this]
  · intro hw
    exact fits_of_accepting w _ hw
  · intro r hr
    exact fits_some w _ r hr

/-- Witness of C15: a complete exchange on a transport with room for exactly
the 16 request bytes of the name "ab". -/
theorem lfsc_ctx_fopen_status_witness :
    (lfsc_ctx_fopen true 1000
      ⟨[0x55, 0xaa, 0x55, 0xaa, 0, 0, 0, 0, 7, 0, 0, 0, 0, 0, 0, 0], [], some 16, 0, 0⟩
      none [0x61, 0x62] true).1 = LFSC_SOK ∧
    (lfsc_ctx_fopen true 1000
      ⟨[0x55, 0xaa, 0x55, 0xaa, 0, 0, 0, 0, 7, 0, 0, 0, 0, 0, 0, 0], [], some 16, 0, 0⟩
      none [0x61, 0x62] true).2.1 = some ⟨1000, 7⟩ :=
  have h := lfsc_ctx_fopen_status true 1000
    ⟨[0x55, 0xaa, 0x55, 0xaa, 0, 0, 0, 0, 7, 0, 0, 0, 0, 0, 0, 0], [], some 16, 0, 0⟩
    none [0x61, 0x62]
  have hok : (lfsc_ctx_fopen true 1000
      ⟨[0x55, 0xaa, 0x55, 0xaa, 0, 0, 0, 0, 7, 0, 0, 0, 0, 0, 0, 0], [], some 16, 0, 0⟩
      none [0x61, 0x62] true).1 = LFSC_SOK := h.1.trans (by decide)
  ⟨hok, (h.2.1 hok).trans (by decide)⟩


/-! ## Context life cycle -/

/-- C16: `lfsc_ctx_disconnect` returns `LFSC_SOK` and leaves
`pipe = INVALID_HANDLE_VALUE` from every context state; it closes the pipe
handle exactly when the context held one; a second call returns `LFSC_SOK`,
leaves the context as the first call left it and closes no handle. -/
theorem lfsc_ctx_disconnect_idempotent (ctx : lfsc_ctx) (sys : Sys) :
    (lfsc_ctx_disconnect ctx sys).1 = LFSC_SOK ∧
    (lfsc_ctx_disconnect ctx sys).2.1.pipe = INVALID_HANDLE_VALUE ∧
    (lfsc_ctx_disconnect ctx sys).2.1.mutex = ctx.mutex ∧
    (ctx.pipe ≠ INVALID_HANDLE_VALUE →
      (lfsc_ctx_disconnect ctx sys).2.2.closed = sys.closed ++ [ctx.pipe]) ∧
    (ctx.pipe = INVALID_HANDLE_VALUE →
      (lfsc_ctx_disconnect ctx sys).2.2.closed = sys.closed) ∧
    (lfsc_ctx_disconnect (lfsc_ctx_disconnect ctx sys).2.1
      (lfsc_ctx_disconnect ctx sys).2.2).1 = LFSC_SOK ∧
    (lfsc_ctx_disconnect (lfsc_ctx_disconnect ctx sys).2.1
      (lfsc_ctx_disconnect ctx sys).2.2).2.1 = (lfsc_ctx_disconnect ctx sys).2.1 ∧
    (lfsc_ctx_disconnect (lfsc_ctx_disconnect ctx sys).2.1
      (lfsc_ctx_disconnect ctx sys).2.2).2.2.closed
        = (lfsc_ctx_disconnect ctx sys).2.2.closed := by
  refine ⟨rfl, rfl, rfl, ?_, ?_, rfl, rfl, ?_⟩
  · intro h
    simp [lfsc_ctx_disconnect, h]
  · intro h
    simp [lfsc_ctx_disconnect, h]
  · simp [lfsc_ctx_disconnect]

/-- Witness of C16: a connected context with pipe handle 44. -/
theorem lfsc_ctx_disconnect_idempotent_witness :
    (lfsc_ctx_disconnect ⟨44, 7⟩ ⟨fun _ _ => true, fun _ => 44, [], [], 0⟩).2.2.closed
      = [] ++ [44] ∧
    (lfsc_ctx_disconnect
      (lfsc_ctx_disconnect ⟨44, 7⟩ ⟨fun _ _ => true, fun _ => 44, [], [], 0⟩).2.1
      (lfsc_ctx_disconnect ⟨44, 7⟩ ⟨fun _ _ => true, fun _ => 44, [], [], 0⟩).2.2).2.2.closed
      = (lfsc_ctx_disconnect ⟨44, 7⟩ ⟨fun _ _ => true, fun _ => 44, [], [], 0⟩).2.2.closed :=
  have h := lfsc_ctx_disconnect_idempotent ⟨44, 7⟩ ⟨fun _ _ => true, fun _ => 44, [], [], 0⟩
  ⟨h.2.2.2.1 (by decide), h.2.2.2.2.2.2.2⟩

/-- C17: when the wait for the endpoint fails, `lfsc_ctx_connect` returns
`LFSC_SERR_BUSY`, passes no name to `CreateFileW`, leaves the context as it was
(so a context whose pipe is `INVALID_HANDLE_VALUE`, such as a newly created one,
keeps it) and has released the mutex. -/
theorem lfsc_ctx_connect_busy (ctx : lfsc_ctx) (sys : Sys) (name : List Nat)
    (ms_timeout : Int) (hwait : sys.WaitNamedPipeW name ms_timeout = false) :
    (lfsc_ctx_connect ctx sys name ms_timeout).1 = LFSC_SERR_BUSY ∧
    (lfsc_ctx_connect ctx sys name ms_timeout).2.1 = ctx ∧
    (lfsc_ctx_connect ctx sys name ms_timeout).2.2.opened = sys.opened ∧
    (lfsc_ctx_connect ctx sys name ms_timeout).2.2.held = sys.held ∧
    (ctx.pipe = INVALID_HANDLE_VALUE →
      (lfsc_ctx_connect ctx sys name ms_timeout).2.1.pipe = INVALID_HANDLE_VALUE) ∧
    (∀ mutex, (lfsc_ctx_create mutex).pipe = INVALID_HANDLE_VALUE) := by
  simp [lfsc_ctx_connect, hwait, lfsc_ctx_create]

/-- Witness of C17: a newly created context and an endpoint that never becomes
available. -/
theorem lfsc_ctx_connect_busy_witness :
    (lfsc_ctx_connect (lfsc_ctx_create 7) ⟨fun _ _ => false, fun _ => 44, [], [], 0⟩
      [104, 105] 500).1 = LFSC_SERR_BUSY ∧
    (lfsc_ctx_connect (lfsc_ctx_create 7) ⟨fun _ _ => false, fun _ => 44, [], [], 0⟩
      [104, 105] 500).2.1 = lfsc_ctx_create 7 ∧
    (lfsc_ctx_connect (lfsc_ctx_create 7) ⟨fun _ _ => false, fun _ => 44, [], [], 0⟩
      [104, 105] 500).2.2.opened = [] :=
  have h := lfsc_ctx_connect_busy (lfsc_ctx_create 7)
    ⟨fun _ _ => false, fun _ => 44, [], [], 0⟩ [104, 105] 500 rfl
  ⟨h.1, h.2.1, h.2.2.1⟩


/-! ## Lock discipline -/

theorem guards_refl (w : World) : w.guards w := ⟨rfl, fun _ => rfl⟩

theorem WriteFile_guards (a v : World) (buf : List Nat) (n : Nat) (h : a.guards v) :
    a.guards (WriteFile v buf n).2.2 := by
  obtain ⟨h1, h2⟩ := h
  refine ⟨h1, fun ha => ?_⟩
  have hv : v.mutex ≠ 0 := by omega
  simp only [WriteFile, World.touch, hv, if_false]
  exact h2 ha

theorem ReadFile_guards (a v : World) (n : Nat) (h : a.guards v) :
    a.guards (ReadFile v n).2.2 := by
  obtain ⟨h1, h2⟩ := h
  refine ⟨h1, fun ha => ?_⟩
  have hv : v.mutex ≠ 0 := by omega
  simp only [ReadFile, World.touch, hv, if_false]
  exact h2 ha

theorem lfsc_write_int_guards (be : Bool) (a v : World) (x : List Nat) (n : Nat)
    (h : a.guards v) : a.guards (lfsc_write_int be v x n).2 :=
  WriteFile_guards a v _ n h

theorem lfsc_read_int_guards (be : Bool) (a v : World) (n : Nat) (h : a.guards v) :
    a.guards (lfsc_read_int be v n).2.2 :=
  ReadFile_guards a v n h

theorem lfsc_write_string_guards (be : Bool) (a v : World) (str : List Nat) (n : Nat)
    (h : a.guards v) : a.guards (lfsc_write_string be v str n).2 := by
  simp only [lfsc_write_string]
  split_ifs
  · exact lfsc_write_int_guards be a v _ 4 h
  · exact WriteFile_guards a _ _ _ (lfsc_write_int_guards be a v _ 4 h)

theorem lfsc_check_status_guards (be : Bool) (a v : World) (h : a.guards v) :
    a.guards (lfsc_check_status be v).2 := by
  simp only [lfsc_check_status]
  split_ifs
  · exact lfsc_read_int_guards be a v 4 h
  · exact lfsc_read_int_guards be a v 4 h
  · exact lfsc_read_int_guards be a _ 4 (lfsc_read_int_guards be a v 4 h)
  · exact lfsc_read_int_guards be a _ 4 (lfsc_read_int_guards be a v 4 h)
  · exact lfsc_read_int_guards be a _ 4 (lfsc_read_int_guards be a v 4 h)

theorem lfsc_write_command_guards (be : Bool) (a v : World) (handle : Nat) (cmd : lfsc_cmd)
    (h : a.guards v) : a.guards (lfsc_write_command be v handle cmd).2 := by
  simp only [lfsc_write_command]
  split_ifs
  · exact lfsc_write_int_guards be a v _ 4 h
  · exact lfsc_write_int_guards be a _ _ 4 (lfsc_write_int_guards be a v _ 4 h)
  · exact lfsc_write_int_guards be a _ _ 8
      (lfsc_write_int_guards be a _ _ 4 (lfsc_write_int_guards be a v _ 4 h))
  · exact lfsc_write_int_guards be a _ _ 8
      (lfsc_write_int_guards be a _ _ 4 (lfsc_write_int_guards be a v _ 4 h))

theorem lfsc_local_seek_guards (be : Bool) (a v : World) (handle offset whence out : Nat)
    (h : a.guards v) : a.guards (lfsc_local_seek be v handle offset whence out).2.2 := by
  have h1 := lfsc_write_command_guards be a v handle LFSC_CSEEK h
  have h2 := lfsc_write_int_guards be a _ (toMem be 8 offset) 8 h1
  have h3 := lfsc_write_int_guards be a _ (toMem be 4 whence) 4 h2
  have h4 := lfsc_check_status_guards be a _ h3
  have h5 := lfsc_read_int_guards be a _ 8 h4
  simp only [lfsc_local_seek]
  split_ifs
  · exact h1
  · exact h2
  · exact h3
  · exact h4
  · exact h5
  · exact h5

theorem release_of_guards (w v : World) (h : (WaitForSingleObject w).guards v) :
    (ReleaseMutex v).mutex = w.mutex ∧ (ReleaseMutex v).bare = w.bare := by
  obtain ⟨h1, h2⟩ := h
  have hm : v.mutex = w.mutex + 1 := h1
  have hb : v.bare = w.bare := h2 (Nat.succ_pos _)
  exact ⟨by simp [ReleaseMutex, hm], hb⟩


theorem lfsc_ctx_fopen_lock (be : Bool) (ctx : Nat) (w : World) (out_file : Option lfsc_file)
    (name : List Nat) (calloc_ok : Bool) :
    (lfsc_ctx_fopen be ctx w out_file name calloc_ok).2.2.mutex = w.mutex ∧
    (lfsc_ctx_fopen be ctx w out_file name calloc_ok).2.2.bare = w.bare := by
  have h0 := guards_refl (WaitForSingleObject w)
  have h1 := lfsc_write_int_guards be _ _ (toMem be 4 lfsc_magic) 4 h0
  have h2 := lfsc_write_int_guards be _ _ (toMem be 4 LFSC_COPEN.code) 4 h1
  have h3 := lfsc_write_string_guards be _ _ (wcharMem be name) ((wcslen name * 2) % 2 ^ 32) h2
  have h4 := lfsc_check_status_guards be _ _ h3
  have h5 := lfsc_read_int_guards be _ _ 8 h4
  simp only [lfsc_ctx_fopen]
  split_ifs
  · exact release_of_guards w _ h1
  · exact release_of_guards w _ h2
  · exact release_of_guards w _ h3
  · exact release_of_guards w _ h4
  · exact release_of_guards w _ h5
  · exact release_of_guards w _ h5
  · exact release_of_guards w _ h5

theorem lfsc_read_lock (be : Bool) (w : World) (stream : lfsc_file) (size : Nat) :
    (lfsc_read be w stream size).2.2.mutex = w.mutex ∧
    (lfsc_read be w stream size).2.2.bare = w.bare := by
  have h0 := guards_refl (WaitForSingleObject w)
  have h1 := lfsc_write_command_guards be _ _ stream.handle LFSC_CREAD h0
  have h2 := lfsc_write_int_guards be _ _ (toMem be 4 (size % 2 ^ 32)) 4 h1
  have h3 := lfsc_check_status_guards be _ _ h2
  have h4 := lfsc_read_int_guards be _ _ 4 h3
  have h5 := fun n => ReadFile_guards _ _ n h4
  simp only [lfsc_read]
  split_ifs
  · exact release_of_guards w _ h1
  · exact release_of_guards w _ h2
  · exact release_of_guards w _ h3
  · exact release_of_guards w _ h4
  · exact release_of_guards w _ (h5 _)
  · exact release_of_guards w _ (h5 _)
  · exact release_of_guards w _ h4

theorem lfsc_write_lock (be : Bool) (w : World) (stream : lfsc_file) (ptr : List Nat)
    (size : Nat) :
    (lfsc_write be w stream ptr size).2.mutex = w.mutex ∧
    (lfsc_write be w stream ptr size).2.bare = w.bare := by
  have h0 := guards_refl (WaitForSingleObject w)
  have h1 := lfsc_write_command_guards be _ _ stream.handle LFSC_CWRITE h0
  have h2 := lfsc_write_int_guards be _ _ (toMem be 4 (size % 2 ^ 32)) 4 h1
  have h3 := WriteFile_guards _ _ ptr (size % 2 ^ 32) h2
  have h4 := lfsc_check_status_guards be _ _ h3
  simp only [lfsc_write]
  split_ifs
  · exact release_of_guards w _ h1
  · exact release_of_guards w _ h2
  · exact release_of_guards w _ h3
  · exact release_of_guards w _ h4
  · exact release_of_guards w _ h4

theorem lfsc_fseek_lock (be : Bool) (w : World) (stream : lfsc_file) (offset whence : Int) :
    (lfsc_fseek be w stream offset whence).2.mutex = w.mutex ∧
    (lfsc_fseek be w stream offset whence).2.bare = w.bare :=
  release_of_guards w _ (lfsc_local_seek_guards be _ _ stream.handle (toPattern 64 offset)
    (toPattern 32 whence) 0 (guards_refl (WaitForSingleObject w)))

theorem lfsc_fclose_lock (be : Bool) (w : World) (stream : lfsc_file) :
    (lfsc_fclose be w stream).2.mutex = w.mutex ∧
    (lfsc_fclose be w stream).2.bare = w.bare := by
  have h0 := guards_refl (WaitForSingleObject w)
  have h1 := lfsc_write_command_guards be _ _ stream.handle LFSC_CCLOSE h0
  have h2 := lfsc_check_status_guards be _ _ h1
  simp only [lfsc_fclose]
  split_ifs
  · exact release_of_guards w _ h1
  · exact release_of_guards w _ h2
  · exact release_of_guards w _ h2

theorem lfsc_get_length_lock (be : Bool) (SZ : Nat) (w : World) (stream : lfsc_file) :
    (lfsc_get_length be SZ w stream).2.mutex = w.mutex ∧
    (lfsc_get_length be SZ w stream).2.bare = w.bare := by
  have h0 := guards_refl (WaitForSingleObject w)
  have h1 := lfsc_write_command_guards be _ _ stream.handle LFSC_CGET_LENGTH h0
  have h2 := lfsc_check_status_guards be _ _ h1
  have h3 := lfsc_read_int_guards be _ _ 8 h2
  simp only [lfsc_get_length]
  split_ifs
  · exact release_of_guards w _ h1
  · exact release_of_guards w _ h2
  · exact release_of_guards w _ h3
  · exact release_of_guards w _ h3

theorem lfsc_get_flags_step (be : Bool) (w v : World) (handle : Nat) (cmd : lfsc_cmd)
    (out_flags : Nat) (cont : Nat → World → lfsc_status × Nat × World)
    (hv : (WaitForSingleObject w).guards v)
    (hc : ∀ b u, (WaitForSingleObject w).guards u →
      ∃ x, (WaitForSingleObject w).guards x ∧ (cont b u).2.2 = ReleaseMutex x) :
    ∃ x, (WaitForSingleObject w).guards x ∧
      (if !(lfsc_write_command be v handle cmd).1 then
        (LFSC_SERR_WRITE_PIPE, out_flags, ReleaseMutex (lfsc_write_command be v handle cmd).2)
      else if (lfsc_check_status be (lfsc_write_command be v handle cmd).2).1 ≠ LFSC_SOK then
        (lfsc_status.ofCode 0, out_flags,
          ReleaseMutex (lfsc_check_status be (lfsc_write_command be v handle cmd).2).2)
      else if !(lfsc_read_int be
          (lfsc_check_status be (lfsc_write_command be v handle cmd).2).2 1).1 then
        (LFSC_SERR_READ_PIPE, out_flags,
          ReleaseMutex (lfsc_read_int be
            (lfsc_check_status be (lfsc_write_command be v handle cmd).2).2 1).2.2)
      else
        cont (ofMem be (lfsc_read_int be
            (lfsc_check_status be (lfsc_write_command be v handle cmd).2).2 1).2.1)
          (lfsc_read_int be
            (lfsc_check_status be (lfsc_write_command be v handle cmd).2).2 1).2.2).2.2
        = ReleaseMutex x := by
  have h1 := lfsc_write_command_guards be _ _ handle cmd hv
  have h2 := lfsc_check_status_guards be _ _ h1
  have h3 := lfsc_read_int_guards be _ _ 1 h2
  split_ifs
  · exact ⟨_, h1, rfl⟩
  · exact ⟨_, h2, rfl⟩
  · exact ⟨_, h3, rfl⟩
  · exact hc _ _ h3

theorem lfsc_get_flags_released (be : Bool) (w : World) (stream : lfsc_file)
    (out_flags : Nat) :
    ∃ x, (WaitForSingleObject w).guards x ∧
      (lfsc_get_flags be w stream out_flags).2.2 = ReleaseMutex x := by
  let cont3 : Nat → Nat → Nat → World → lfsc_status × Nat × World :=
    fun can_seek can_write can_read v3 =>
      (LFSC_SOK,
        (if can_write ≠ 0 then
          (if can_read ≠ 0 then
            (if can_seek ≠ 0 then out_flags ||| LFSC_CAN_SEEK else out_flags) ||| LFSC_CAN_READ
          else (if can_seek ≠ 0 then out_flags ||| LFSC_CAN_SEEK else out_flags))
            ||| LFSC_CAN_WRITE
        else
          (if can_read ≠ 0 then
            (if can_seek ≠ 0 then out_flags ||| LFSC_CAN_SEEK else out_flags) ||| LFSC_CAN_READ
          else (if can_seek ≠ 0 then out_flags ||| LFSC_CAN_SEEK else out_flags))),
        ReleaseMutex v3)
  let cont2 : Nat → Nat → World → lfsc_status × Nat × World :=
    fun can_seek can_write v2 =>
      if !(lfsc_write_command be v2 stream.handle LFSC_CGET_CAN_READ).1 then
        (LFSC_SERR_WRITE_PIPE, out_flags,
          ReleaseMutex (lfsc_write_command be v2 stream.handle LFSC_CGET_CAN_READ).2)
      else if (lfsc_check_status be
          (lfsc_write_command be v2 stream.handle LFSC_CGET_CAN_READ).2).1 ≠ LFSC_SOK then
        (lfsc_status.ofCode 0, out_flags,
          ReleaseMutex (lfsc_check_status be
            (lfsc_write_command be v2 stream.handle LFSC_CGET_CAN_READ).2).2)
      else if !(lfsc_read_int be (lfsc_check_status be
          (lfsc_write_command be v2 stream.handle LFSC_CGET_CAN_READ).2).2 1).1 then
        (LFSC_SERR_READ_PIPE, out_flags,
          ReleaseMutex (lfsc_read_int be (lfsc_check_status be
            (lfsc_write_command be v2 stream.handle LFSC_CGET_CAN_READ).2).2 1).2.2)
      else
        cont3 can_seek can_write
          (ofMem be (lfsc_read_int be (lfsc_check_status be
            (lfsc_write_command be v2 stream.handle LFSC_CGET_CAN_READ).2).2 1).2.1)
          (lfsc_read_int be (lfsc_check_status be
            (lfsc_write_command be v2 stream.handle LFSC_CGET_CAN_READ).2).2 1).2.2
  let cont1 : Nat → World → lfsc_status × Nat × World :=
    fun can_seek v1 =>
      if !(lfsc_write_command be v1 stream.handle LFSC_CGET_CAN_WRITE).1 then
        (LFSC_SERR_WRITE_PIPE, out_flags,
          ReleaseMutex (lfsc_write_command be v1 stream.handle LFSC_CGET_CAN_WRITE).2)
      else if (lfsc_check_status be
          (lfsc_write_command be v1 stream.handle LFSC_CGET_CAN_WRITE).2).1 ≠ LFSC_SOK then
        (lfsc_status.ofCode 0, out_flags,
          ReleaseMutex (lfsc_check_status be
            (lfsc_write_command be v1 stream.handle LFSC_CGET_CAN_WRITE).2).2)
      else if !(lfsc_read_int be (lfsc_check_status be
          (lfsc_write_command be v1 stream.handle LFSC_CGET_CAN_WRITE).2).2 1).1 then
        (LFSC_SERR_READ_PIPE, out_flags,
          ReleaseMutex (lfsc_read_int be (lfsc_check_status be
            (lfsc_write_command be v1 stream.handle LFSC_CGET_CAN_WRITE).2).2 1).2.2)
      else
        cont2 can_seek
          (ofMem be (lfsc_read_int be (lfsc_check_status be
            (lfsc_write_command be v1 stream.handle LFSC_CGET_CAN_WRITE).2).2 1).2.1)
          (lfsc_read_int be (lfsc_check_status be
            (lfsc_write_command be v1 stream.handle LFSC_CGET_CAN_WRITE).2).2 1).2.2
  have k3 : ∀ a b c u, (WaitForSingleObject w).guards u →
      ∃ x, (WaitForSingleObject w).guards x ∧ (cont3 a b c u).2.2 = ReleaseMutex x :=
    fun a b c u hu => ⟨u, hu, rfl⟩
  have k2 : ∀ a b u, (WaitForSingleObject w).guards u →
      ∃ x, (WaitForSingleObject w).guards x ∧ (cont2 a b u).2.2 = ReleaseMutex x :=
    fun a b u hu => lfsc_get_flags_step be w u stream.handle LFSC_CGET_CAN_READ out_flags
      (cont3 a b) hu (k3 a b)
  have k1 : ∀ a u, (WaitForSingleObject w).guards u →
      ∃ x, (WaitForSingleObject w).guards x ∧ (cont1 a u).2.2 = ReleaseMutex x :=
    fun a u hu => lfsc_get_flags_step be w u stream.handle LFSC_CGET_CAN_WRITE out_flags
      (cont2 a) hu (k2 a)
  exact lfsc_get_flags_step be w (WaitForSingleObject w) stream.handle LFSC_CGET_CAN_SEEK
    out_flags cont1 (guards_refl _) k1

theorem lfsc_get_flags_lock (be : Bool) (w : World) (stream : lfsc_file) (out_flags : Nat) :
    (lfsc_get_flags be w stream out_flags).2.2.mutex = w.mutex ∧
    (lfsc_get_flags be w stream out_flags).2.2.bare = w.bare := by
  obtain ⟨v, hv, he⟩ := lfsc_get_flags_released be w stream out_flags
  rw [he]
  exact release_of_guards w v hv

/-- C18: with the hold count of the context mutex and the count of transport
calls issued without the mutex as explicit state, each of `lfsc_ctx_fopen`,
`lfsc_read`, `lfsc_write`, `lfsc_fseek`, `lfsc_fflush`, `lfsc_fclose`,
`lfsc_get_length` and `lfsc_get_flags` leaves both counts as it found them on
every return path: no `ReadFile` or `WriteFile` of the exchange runs without
the mutex, and the mutex is released as often as it was acquired. A transport
call made while the mutex is not held does raise the second count. -/
theorem lock_discipline (be : Bool) (w : World) (stream : lfsc_file) :
    (∀ ctx out_file name calloc_ok,
      (lfsc_ctx_fopen be ctx w out_file name calloc_ok).2.2.mutex = w.mutex ∧
      (lfsc_ctx_fopen be ctx w out_file name calloc_ok).2.2.bare = w.bare) ∧
    (∀ size,
      (lfsc_read be w stream size).2.2.mutex = w.mutex ∧
      (lfsc_read be w stream size).2.2.bare = w.bare) ∧
    (∀ ptr size,
      (lfsc_write be w stream ptr size).2.mutex = w.mutex ∧
      (lfsc_write be w stream ptr size).2.bare = w.bare) ∧
    (∀ offset whence,
      (lfsc_fseek be w stream offset whence).2.mutex = w.mutex ∧
      (lfsc_fseek be w stream offset whence).2.bare = w.bare) ∧
    ((lfsc_fflush be w stream).2.mutex = w.mutex ∧
      (lfsc_fflush be w stream).2.bare = w.bare) ∧
    ((lfsc_fclose be w stream).2.mutex = w.mutex ∧
      (lfsc_fclose be w stream).2.bare = w.bare) ∧
    (∀ SZ,
      (lfsc_get_length be SZ w stream).2.mutex = w.mutex ∧
      (lfsc_get_length be SZ w stream).2.bare = w.bare) ∧
    (∀ out_flags,
      (lfsc_get_flags be w stream out_flags).2.2.mutex = w.mutex ∧
      (lfsc_get_flags be w stream out_flags).2.2.bare = w.bare) ∧
    (w.mutex = 0 → ∀ buf n,
      (ReadFile w n).2.2.bare = w.bare + 1 ∧ (WriteFile w buf n).2.2.bare = w.bare + 1) ∧
    (WaitForSingleObject w).mutex = w.mutex + 1 := by
  refine ⟨fun ctx out_file name calloc_ok => lfsc_ctx_fopen_lock be ctx w out_file name calloc_ok,
    fun size => lfsc_read_lock be w stream size,
    fun ptr size => lfsc_write_lock be w stream ptr size,
    fun offset whence => lfsc_fseek_lock be w stream offset whence,
    lfsc_fclose_lock be w stream, lfsc_fclose_lock be w stream,
    fun SZ => lfsc_get_length_lock be SZ w stream,
    fun out_flags => lfsc_get_flags_lock be w stream out_flags, ?_, rfl⟩
  intro h0 buf n
  simp [ReadFile, WriteFile, World.touch, h0]

/-- Witness of C18: a read from a state in which the mutex is free. -/
theorem lock_discipline_witness :
    (lfsc_read false ⟨[0x55, 0xaa, 0x55, 0xaa, 0, 0, 0, 0, 0, 0, 0, 0], [], none, 0, 0⟩
      ⟨0, 5⟩ 4).2.2.mutex = 0 ∧
    (lfsc_read false ⟨[0x55, 0xaa, 0x55, 0xaa, 0, 0, 0, 0, 0, 0, 0, 0], [], none, 0, 0⟩
      ⟨0, 5⟩ 4).2.2.bare = 0 ∧
    (ReadFile ⟨[0x55, 0xaa, 0x55, 0xaa, 0, 0, 0, 0, 0, 0, 0, 0], [], none, 0, 0⟩ 4).2.2.bare
      = 0 + 1 :=
  have h := lock_discipline false
    ⟨[0x55, 0xaa, 0x55, 0xaa, 0, 0, 0, 0, 0, 0, 0, 0], [], none, 0, 0⟩ ⟨0, 5⟩
  ⟨(h.2.1 4).1, (h.2.1 4).2, (h.2.2.2.2.2.2.2.2.1 rfl [] 4).1⟩

end Lfsc
